import Mathlib

/-!
Shallow embedding of `src/server.ts`, a Pokedex backend: a per-identity
collection store over a key-value store ("box" routes) and an aggregator over
an upstream creature catalog ("pokemon" routes).  Request/response bodies and
stored values are modelled as JSON trees; the external redis client is
modelled as an association list of string keys to stored JSON values (the
store holds `JSON.stringify` output, and `JSON.stringify`/`JSON.parse` is an
exact inverse pair on the JSON values this server produces, so the embedding
keeps the JSON value itself as the stored payload); the external upstream
catalog client is modelled as a record of fetch functions that may fail with
a not-found or transport condition.
-/

/-- JSON values, as produced by `JSON.parse` on a request body and consumed by
`JSON.stringify` when persisting a box entry.  Numbers are modelled as exact
rationals; every numeric literal appearing in the claims is an integer. -/
inductive Json where
  | null : Json
  | bool (b : Bool) : Json
  | num (q : ℚ) : Json
  | str (s : String) : Json
  | arr (elems : List Json) : Json
  | obj (fields : List (String × Json)) : Json

/-- Lookup of a field in a JSON object field list.  The LAST occurrence of a
key wins, matching the duplicate-key semantics of `JSON.parse` feeding the
JavaScript object the server actually manipulates. -/
def fieldLookup (fs : List (String × Json)) (k : String) : Option Json :=
  match fs with
  | [] => none
  | (k2, v) :: rest =>
    match fieldLookup rest k with
    | some v2 => some v2
    | none => if k2 == k then some v else none

/-- Field access `j[k]` on a JSON value; `none` when `j` is not an object. -/
def Json.lookup (j : Json) (k : String) : Option Json :=
  match j with
  | .obj fs => fieldLookup fs k
  | _ => none

/-- Whether a JSON value is an object. -/
def Json.isObj (j : Json) : Bool :=
  match j with
  | .obj _ => true
  | _ => false

/-- One entry of a Zod issue list: the offending field path and a message.
Embeds the `errors` array attached to 400 responses (src/server.ts:345). -/
structure FieldError where
  field : String
  message : String
deriving DecidableEq

/-- Consume exactly `n` decimal digits from the front of a character list. -/
def digitsN : Nat → List Char → Option (List Char)
  | 0, cs => some cs
  | _ + 1, [] => none
  | n + 1, c :: cs => if c.isDigit then digitsN n cs else none

/-- Consume one expected literal character. -/
def litChar (ch : Char) : List Char → Option (List Char)
  | [] => none
  | c :: cs => if c = ch then some cs else none

/-- Accept the tail of a Zod datetime: either a bare `Z`, or a dot, at least
one fractional digit, then `Z`. -/
def fracThenZ (cs : List Char) : Bool :=
  match cs with
  | ['Z'] => true
  | '.' :: rest =>
    !(rest.takeWhile (fun c => c.isDigit)).isEmpty &&
      rest.dropWhile (fun c => c.isDigit) == ['Z']
  | _ => false

/-- The `z.string().datetime()` check of src/server.ts:68: an ISO-8601 UTC
datetime of shape `YYYY-MM-DDTHH:MM:SS(.digits)?Z`, embedding Zod's datetime
regular expression (digit-shape check, no offset allowed). -/
def isIsoDatetime (s : String) : Bool :=
  match (do
    let cs ← digitsN 4 s.data
    let cs ← litChar '-' cs
    let cs ← digitsN 2 cs
    let cs ← litChar '-' cs
    let cs ← digitsN 2 cs
    let cs ← litChar 'T' cs
    let cs ← digitsN 2 cs
    let cs ← litChar ':' cs
    let cs ← digitsN 2 cs
    let cs ← litChar ':' cs
    digitsN 2 cs : Option (List Char)) with
  | some rest => fracThenZ rest
  | none => false

/-- Issues produced by `z.string().datetime()` on a present `createdAt`. -/
def chkDatetimeVal (v : Json) : List FieldError :=
  match v with
  | .str s => if isIsoDatetime s then [] else [⟨"createdAt", "Invalid datetime"⟩]
  | _ => [⟨"createdAt", "Expected string"⟩]

/-- Issues produced by `z.number().int().min(1).max(100)` on a present
`level` (src/server.ts:69). -/
def chkLevelVal (v : Json) : List FieldError :=
  match v with
  | .num q =>
    if q.den = 1 then
      if q.num < 1 then [⟨"level", "Number must be greater than or equal to 1"⟩]
      else if q.num > 100 then [⟨"level", "Number must be less than or equal to 100"⟩]
      else []
    else [⟨"level", "Expected integer, received float"⟩]
  | _ => [⟨"level", "Expected number"⟩]

/-- Issues produced by `z.string().min(1)` on a present `location`. -/
def chkLocationVal (v : Json) : List FieldError :=
  match v with
  | .str s =>
    if 1 ≤ s.length then [] else [⟨"location", "String must contain at least 1 character(s)"⟩]
  | _ => [⟨"location", "Expected string"⟩]

/-- Issues produced by `z.string()` on a present `notes`. -/
def chkNotesVal (v : Json) : List FieldError :=
  match v with
  | .str _ => []
  | _ => [⟨"notes", "Expected string"⟩]

/-- Issues produced by `z.number().int().positive()` on a present
`pokemonId` (src/server.ts:72). -/
def chkPokemonIdVal (v : Json) : List FieldError :=
  match v with
  | .num q =>
    if q.den = 1 then
      if q.num ≤ 0 then [⟨"pokemonId", "Number must be greater than 0"⟩] else []
    else [⟨"pokemonId", "Expected integer, received float"⟩]
  | _ => [⟨"pokemonId", "Expected number"⟩]

/-- A required field: absent yields a `Required` issue, present defers to the
field value check. -/
def chkReq (f : String) (chk : Json → List FieldError) (o : Option Json) : List FieldError :=
  match o with
  | none => [⟨f, "Required"⟩]
  | some v => chk v

/-- An optional field: absent is fine, present defers to the value check. -/
def chkOpt (chk : Json → List FieldError) (o : Option Json) : List FieldError :=
  match o with
  | none => []
  | some v => chk v

/-- Issue list of `InsertBoxEntrySchema` (src/server.ts:67-73) on an object.
A Zod object schema in its default mode only inspects its declared keys;
unrecognized extra keys are stripped from the result, not rejected. -/
def insertFieldErrs (j : Json) : List FieldError :=
  chkReq "createdAt" chkDatetimeVal (j.lookup "createdAt") ++
  chkReq "level" chkLevelVal (j.lookup "level") ++
  chkReq "location" chkLocationVal (j.lookup "location") ++
  chkOpt chkNotesVal (j.lookup "notes") ++
  chkReq "pokemonId" chkPokemonIdVal (j.lookup "pokemonId")

/-- Extract a string field value (only consulted once validation passed). -/
def getStrVal (o : Option Json) : String :=
  match o with
  | some (.str s) => s
  | _ => ""

/-- Extract an integral numeric field value (only consulted once validation
passed). -/
def getIntVal (o : Option Json) : Int :=
  match o with
  | some (.num q) => q.num
  | _ => 0

/-- Extract an optional string field value. -/
def getOptStrVal (o : Option Json) : Option String :=
  match o with
  | some (.str s) => some s
  | _ => none

/-- Extract an optional integral numeric field value. -/
def getOptIntVal (o : Option Json) : Option Int :=
  match o with
  | some (.num q) => some q.num
  | _ => none

/-- The typed output of `InsertBoxEntrySchema.parse`. -/
structure InsertPayload where
  createdAt : String
  level : Int
  location : String
  notes : Option String
  pokemonId : Int
deriving DecidableEq

/-- The typed output of `UpdateBoxEntrySchema.parse`: every field optional. -/
structure UpdatePayload where
  createdAt : Option String
  level : Option Int
  location : Option String
  notes : Option String
  pokemonId : Option Int
deriving DecidableEq

/-- Zod root issue when the payload is not an object at all. -/
def rootErr : List FieldError := [⟨"", "Expected object"⟩]

/-- `InsertBoxEntrySchema.parse` (src/server.ts:67-73, used at line 328):
validates and, on success, keeps exactly the declared keys. -/
def parseInsert (j : Json) : Except (List FieldError) InsertPayload :=
  if j.isObj then
    let es := insertFieldErrs j
    if es.isEmpty then
      .ok ⟨getStrVal (j.lookup "createdAt"), getIntVal (j.lookup "level"),
           getStrVal (j.lookup "location"), getOptStrVal (j.lookup "notes"),
           getIntVal (j.lookup "pokemonId")⟩
    else .error es
  else .error rootErr

/-- Issue list of `UpdateBoxEntrySchema` (src/server.ts:75-81) on an object:
same field rules as the insert schema with every field optional. -/
def updateFieldErrs (j : Json) : List FieldError :=
  chkOpt chkDatetimeVal (j.lookup "createdAt") ++
  chkOpt chkLevelVal (j.lookup "level") ++
  chkOpt chkLocationVal (j.lookup "location") ++
  chkOpt chkNotesVal (j.lookup "notes") ++
  chkOpt chkPokemonIdVal (j.lookup "pokemonId")

/-- `UpdateBoxEntrySchema.parse` (src/server.ts:75-81, used at line 398). -/
def parseUpdate (j : Json) : Except (List FieldError) UpdatePayload :=
  if j.isObj then
    let es := updateFieldErrs j
    if es.isEmpty then
      .ok ⟨getOptStrVal (j.lookup "createdAt"), getOptIntVal (j.lookup "level"),
           getOptStrVal (j.lookup "location"), getOptStrVal (j.lookup "notes"),
           getOptIntVal (j.lookup "pokemonId")⟩
    else .error es
  else .error rootErr

/-- Issues produced by `z.string()` on a present `id`. -/
def chkIdVal (v : Json) : List FieldError :=
  match v with
  | .str _ => []
  | _ => [⟨"id", "Expected string"⟩]

/-- Issue list of `BoxEntrySchema = InsertBoxEntrySchema.extend({id})`
(src/server.ts:83-85). -/
def fullFieldErrs (j : Json) : List FieldError :=
  insertFieldErrs j ++ chkReq "id" chkIdVal (j.lookup "id")

/-- `BoxEntrySchema.parse` as used at src/server.ts:406: the parsed value is
discarded, only validation success matters. -/
def parseFullEntry (j : Json) : Except (List FieldError) Unit :=
  if j.isObj then
    let es := fullFieldErrs j
    if es.isEmpty then .ok () else .error es
  else .error rootErr

/-- The key-value store behind `redisClient`: string keys to stored JSON
payloads, with at most one live binding per key (redis `SET` overwrites). -/
abbrev Store := List (String × Json)

/-- Redis `GET key`. -/
def storeGet (k : String) (s : Store) : Option Json :=
  match s with
  | [] => none
  | (k2, v) :: rest => if k2 == k then some v else storeGet k rest

/-- Redis `SET key value`: overwrite the live binding or append a fresh one. -/
def storeSet (k : String) (v : Json) (s : Store) : Store :=
  match s with
  | [] => [(k, v)]
  | (k2, v2) :: rest => if k2 == k then (k, v) :: rest else (k2, v2) :: storeSet k v rest

/-- Redis `DEL key`. -/
def storeDel (k : String) (s : Store) : Store :=
  s.filter (fun kv => !(kv.1 == k))

/-- Redis `EXISTS key`. -/
def storeExists (k : String) (s : Store) : Bool :=
  s.any (fun kv => kv.1 == k)

/-- One bracket class of a redis glob pattern, following `stringmatchlen`:
scan the class body for the string character `c`, where `\x` escapes the next
pattern character, `a-b` is an (order-normalized) inclusive range, and `]`
ends the class — an exhausted pattern ends it too; `neg` records a leading
`^`, `acc` the verdict so far.  Returns the verdict together with the pattern
rest after the class. -/
def classMatch (neg acc : Bool) (c : Char) : List Char → Bool × List Char
  | '\\' :: x :: rest => classMatch neg (acc || (x == c)) c rest
  | ']' :: rest => ((if neg then !acc else acc), rest)
  | a :: '-' :: b :: rest =>
    classMatch neg
      (acc || decide (min a.toNat b.toNat ≤ c.toNat ∧ c.toNat ≤ max a.toNat b.toNat)) c rest
  | a :: rest => classMatch neg (acc || (a == c)) c rest
  | [] => ((if neg then !acc else acc), [])

/-- Redis glob matching (the `stringmatchlen` routine behind `KEYS`): `*` any
sequence, `?` exactly one character, `[...]` and `[^...]` character classes,
`\x` a literal `x`, every other pattern character itself.  The recursion is
paced by a fuel argument: every recursive step shortens
`pattern.length + string.length` by at least one (a bracket class only ever
consumes pattern characters, and the class rest is never longer than the
class body), so with the fuel chosen by `globMatch` below the zero-fuel
branch is unreachable. -/
def globMatchFuel : Nat → List Char → List Char → Bool
  | 0, _, _ => false
  | _ + 1, [], s => s.isEmpty
  | fuel + 1, c :: p, s =>
    if c = '*' then
      globMatchFuel fuel p s ||
        (match s with
         | [] => false
         | _ :: s2 => globMatchFuel fuel (c :: p) s2)
    else if c = '?' then
      match s with
      | [] => false
      | _ :: s2 => globMatchFuel fuel p s2
    else if c = '[' then
      match s with
      | [] => false
      | c2 :: s2 =>
        match p with
        | '^' :: p2 =>
          (classMatch true false c2 p2).1 &&
            globMatchFuel fuel (classMatch true false c2 p2).2 s2
        | _ =>
          (classMatch false false c2 p).1 &&
            globMatchFuel fuel (classMatch false false c2 p).2 s2
    else if c = '\\' then
      match p, s with
      | x :: p2, c2 :: s2 => (c2 == x) && globMatchFuel fuel p2 s2
      | [], c2 :: s2 => (c2 == c) && globMatchFuel fuel [] s2
      | _, [] => false
    else
      match s with
      | [] => false
      | c2 :: s2 => (c2 == c) && globMatchFuel fuel p s2

/-- Redis glob matching of a whole pattern against a whole string. -/
def globMatch (pattern s : List Char) : Bool :=
  globMatchFuel (pattern.length + s.length + 1) pattern s

/-- Redis `KEYS pattern` (src/server.ts:312, 456): enumerate the store keys
the glob pattern matches. -/
def redisKeys (pattern : String) (s : Store) : List String :=
  (s.map (fun kv => kv.1)).filter (fun k => globMatch pattern.data k.data)

/-- The store key of a box entry: `pennkey:pokedex:entryId`
(src/server.ts:311, 336, 360, 386, 430, 455). -/
def boxKey (pennkey entryId : String) : String :=
  pennkey ++ ":pokedex:" ++ entryId

/-- JavaScript `String.prototype.split` with a one-character separator, on the
character list. -/
def splitChars (sep : Char) : List Char → List (List Char)
  | [] => [[]]
  | c :: rest =>
    if c = sep then [] :: splitChars sep rest
    else
      match splitChars sep rest with
      | [] => [[c]]
      | g :: gs => (c :: g) :: gs

/-- JavaScript `s.split(sep)` for a single-character separator. -/
def jsSplit (s : String) (sep : Char) : List String :=
  (splitChars sep s.data).map (fun l => ⟨l⟩)

/-- Error payload `{code, message, errors?}` together with the HTTP status the
handler attaches to it. -/
structure ApiError where
  status : Nat
  code : String
  message : String
  errors : List FieldError
deriving DecidableEq

/-- 404 body of the box routes (src/server.ts:365-368 etc.). -/
def errBoxNotFound : ApiError := ⟨404, "NOT_FOUND", "Box entry not found", []⟩

/-- 400 body attached to a `ZodError` (src/server.ts:341-346, 411-416). -/
def errInvalidBody (es : List FieldError) : ApiError :=
  ⟨400, "BAD_REQUEST", "Invalid request body", es⟩

/-- 400 body of the malformed-pagination branch (src/server.ts:254-259). -/
def errBadPagination : ApiError :=
  ⟨400, "BAD_REQUEST", "Invalid limit or offset parameters", []⟩

/-- 404 body of the single-creature route (src/server.ts:294-298). -/
def errPokemonNotFound : ApiError := ⟨404, "NOT_FOUND", "Pokemon not found", []⟩

/-- 400 body of the empty-name branch (src/server.ts:284-289). -/
def errNameRequired : ApiError := ⟨400, "BAD_REQUEST", "Pokemon name is required", []⟩

/-- 500 body of the single-creature route (src/server.ts:301-304). -/
def errFetchPokemon : ApiError :=
  ⟨500, "INTERNAL_SERVER_ERROR", "Failed to fetch Pokemon", []⟩

/-- 500 body of the bulk-listing route (src/server.ts:272-275). -/
def errFetchList : ApiError :=
  ⟨500, "INTERNAL_SERVER_ERROR", "Failed to fetch Pokemon list", []⟩

/-- 401 body for a missing authorization header (src/server.ts:119-123). -/
def errAuthMissing : ApiError := ⟨401, "UNAUTHORIZED", "Missing authorization header", []⟩

/-- 401 body for a malformed authorization header (src/server.ts:127-131). -/
def errAuthFormat : ApiError :=
  ⟨401, "UNAUTHORIZED", "Invalid authorization header format", []⟩

/-- 401 body for a token that fails verification (src/server.ts:140-144). -/
def errAuthInvalid : ApiError := ⟨401, "UNAUTHORIZED", "Invalid or expired token", []⟩

/-- The authentication middleware (src/server.ts:116-146).  `jwt.verify` is an
external collaborator, injected as `verifyTok` (token to identity, `none` on
an invalid or expired token). -/
def authenticate (verifyTok : String → Option String) (authHeader : Option String) :
    Except ApiError String :=
  match authHeader with
  | none => .error errAuthMissing
  | some h =>
    let parts := jsSplit h ' '
    if parts.length != 2 || parts.getD 0 "" != "Bearer" then .error errAuthFormat
    else
      match verifyTok (parts.getD 1 "") with
      | some pennkey => .ok pennkey
      | none => .error errAuthInvalid

/-- The five fields of a validated insert payload, in the key order of the
object the handler builds by spreading the Zod output (src/server.ts:331-334):
`notes` is present only when the payload carried it. -/
def insertFieldsJson (p : InsertPayload) : List (String × Json) :=
  [("createdAt", Json.str p.createdAt), ("level", Json.num (p.level : ℚ)),
   ("location", Json.str p.location)] ++
  (match p.notes with
   | some n => [("notes", Json.str n)]
   | none => []) ++
  [("pokemonId", Json.num (p.pokemonId : ℚ))]

/-- The stored box entry `{id, ...validatedData}` (src/server.ts:331-334). -/
def encodeEntry (entryId : String) (p : InsertPayload) : Json :=
  Json.obj (("id", Json.str entryId) :: insertFieldsJson p)

/-- GET /box/ (src/server.ts:309-323): enumerate the identity's keys and keep
the third `:`-separated segment of each. -/
def listBox (pennkey : String) (s : Store) : List String :=
  (redisKeys (pennkey ++ ":pokedex:*") s).map (fun k => (jsSplit k ':').getD 2 "")

/-- POST /box/ (src/server.ts:326-354).  The fresh id produced by the external
`createId()` generator is passed in as `freshId`. -/
def createBox (pennkey freshId : String) (body : Json) (s : Store) :
    Except ApiError Json × Store :=
  match parseInsert body with
  | .error es => (.error (errInvalidBody es), s)
  | .ok p =>
    let entry := encodeEntry freshId p
    (.ok entry, storeSet (boxKey pennkey freshId) entry s)

/-- GET /box/:id (src/server.ts:357-380). -/
def getBox (pennkey entryId : String) (s : Store) : Except ApiError Json :=
  match storeGet (boxKey pennkey entryId) s with
  | some j => .ok j
  | none => .error errBoxNotFound

/-- The present fields of a validated update payload, in Zod shape order, as
spread over the existing record (src/server.ts:400-403). -/
def updateFieldsJson (u : UpdatePayload) : List (String × Json) :=
  [("createdAt", u.createdAt.map Json.str),
   ("level", u.level.map (fun n => Json.num (n : ℚ))),
   ("location", u.location.map Json.str),
   ("notes", u.notes.map Json.str),
   ("pokemonId", u.pokemonId.map (fun n => Json.num (n : ℚ)))].filterMap
    (fun kv => kv.2.map (fun v => (kv.1, v)))

/-- Overwrite one field of the spread base with the update's value for the
same key, when the update carries that key. -/
def overwriteWith (u : List (String × Json)) (kv : String × Json) : String × Json :=
  match u.find? (fun kv2 => kv2.1 == kv.1) with
  | some kv2 => (kv.1, kv2.2)
  | none => kv

/-- JavaScript object spread `{...fs, ...u}`: keys of `fs` keep their position
(overwritten where `u` also has the key), new keys of `u` are appended. -/
def mergeFields (fs u : List (String × Json)) : List (String × Json) :=
  fs.map (overwriteWith u) ++
  u.filter (fun kv2 => !(fs.any (fun kv => kv.1 == kv2.1)))

/-- `{...existingEntry, ...updateData}` (src/server.ts:400-403).  Spreading a
non-object contributes no named keys, so a corrupt non-object stored value
merges to just the update fields (which then fail the full-entry
re-validation, the id being absent). -/
def jsonMergeEntry (existing : Json) (u : List (String × Json)) : Json :=
  match existing with
  | .obj fs => Json.obj (mergeFields fs u)
  | _ => Json.obj u

/-- PUT /box/:id (src/server.ts:383-424): read, validate the partial payload,
shallow-merge (the `updatedEntry` constant of the handler, written out), then
re-validate the merged entry and persist it. -/
def updateBox (pennkey entryId : String) (body : Json) (s : Store) :
    Except ApiError Json × Store :=
  match storeGet (boxKey pennkey entryId) s with
  | none => (.error errBoxNotFound, s)
  | some existing =>
    match parseUpdate body with
    | .error es => (.error (errInvalidBody es), s)
    | .ok u =>
      match parseFullEntry (jsonMergeEntry existing (updateFieldsJson u)) with
      | .error es => (.error (errInvalidBody es), s)
      | .ok _ =>
        (.ok (jsonMergeEntry existing (updateFieldsJson u)),
         storeSet (boxKey pennkey entryId) (jsonMergeEntry existing (updateFieldsJson u)) s)

/-- DELETE /box/:id (src/server.ts:427-450). -/
def deleteBox (pennkey entryId : String) (s : Store) : Except ApiError Unit × Store :=
  if storeExists (boxKey pennkey entryId) s then
    (.ok (), storeDel (boxKey pennkey entryId) s)
  else (.error errBoxNotFound, s)

/-- DELETE /box/ (src/server.ts:453-470): bulk-delete every key of the
identity; zero matches is a silent no-op. -/
def clearBox (pennkey : String) (s : Store) : Store :=
  (redisKeys (pennkey ++ ":pokedex:*") s).foldl (fun st k => storeDel k st) s

/-- Failure modes of an upstream catalog fetch as the handlers distinguish
them: an error whose `response.status` is 404, or anything else. -/
inductive UpErr where
  | notFound
  | transport
deriving DecidableEq

/-- A flavor-text entry of the species record: `{flavor_text, language.name}`. -/
structure LangText where
  text : String
  lang : String
deriving DecidableEq

/-- A localized-name entry: `{name, language.name}`. -/
structure LangName where
  name : String
  lang : String
deriving DecidableEq

/-- A type slot of the base record: `t.type.name`. -/
structure TypeSlot where
  typeName : String
deriving DecidableEq

/-- A move reference of the base record: `m.move.name`. -/
structure MoveRef where
  moveName : String
deriving DecidableEq

/-- A stat entry of the base record: `{stat.name, base_stat}`. -/
structure StatEntry where
  statName : String
  base_stat : Option Int
deriving DecidableEq

/-- The four sprite URLs, `none` when upstream has no sprite. -/
structure SpriteSet where
  front_default : Option String
  back_default : Option String
  front_shiny : Option String
  back_shiny : Option String
deriving DecidableEq

/-- The upstream base creature record, restricted to the fields the server
reads. -/
structure PokemonData where
  id : Int
  name : String
  types : List TypeSlot
  moves : List MoveRef
  stats : List StatEntry
  sprites : SpriteSet
deriving DecidableEq

/-- The upstream species record, restricted to the fields the server reads. -/
structure SpeciesData where
  flavor_text_entries : List LangText
  names : List LangName
deriving DecidableEq

/-- The upstream move record, restricted to the fields the server reads. -/
structure MoveData where
  name : String
  names : List LangName
  typeName : String
  power : Option Int
deriving DecidableEq

/-- The upstream catalog client (`pokedex-promise-v2`), an external
collaborator: each call either returns a record or fails. -/
structure Catalog where
  getPokemonByName : String → Except UpErr PokemonData
  getPokemonSpeciesByName : String → Except UpErr SpeciesData
  getMoveByName : String → Except UpErr MoveData
  getPokemonsList : Int → Int → Except UpErr (List String)

/-- An element of the composite creature: `{name, color}`. -/
structure PokemonType where
  name : String
  color : String
deriving DecidableEq

/-- An ability of the composite creature: `{name, power?, type}`. -/
structure PokemonMove where
  name : String
  power : Option Int
  type : PokemonType
deriving DecidableEq

/-- The six named stats, each defaulting to 0. -/
structure StatBlock where
  hp : Int
  speed : Int
  attack : Int
  defense : Int
  specialAttack : Int
  specialDefense : Int
deriving DecidableEq

/-- The composite creature the aggregator returns (src/server.ts:34-54). -/
structure Pokemon where
  id : Int
  name : String
  description : String
  types : List PokemonType
  moves : List PokemonMove
  sprites : SpriteSet
  stats : StatBlock
deriving DecidableEq

/-- ASCII lower-casing of one character, embedding what JavaScript
`toLowerCase` does on the ASCII names the catalog uses. -/
def jsCharToLower (c : Char) : Char :=
  if 65 ≤ c.toNat ∧ c.toNat ≤ 90 then Char.ofNat (c.toNat + 32) else c

/-- JavaScript `s.toLowerCase()` on ASCII strings. -/
def jsToLowerCase (s : String) : String :=
  ⟨s.data.map jsCharToLower⟩

/-- ASCII upper-casing of one character. -/
def jsCharToUpper (c : Char) : Char :=
  if 97 ≤ c.toNat ∧ c.toNat ≤ 122 then Char.ofNat (c.toNat - 32) else c

/-- JavaScript `s.toUpperCase()` on ASCII strings. -/
def jsToUpperCase (s : String) : String :=
  ⟨s.data.map jsCharToUpper⟩

/-- The static element-name to display-color table (src/server.ts:89-108). -/
def typeColors (n : String) : Option String :=
  match n with
  | "normal" => some "#A8A878"
  | "fire" => some "#F08030"
  | "water" => some "#6890F0"
  | "electric" => some "#F8D030"
  | "grass" => some "#78C850"
  | "ice" => some "#98D8D8"
  | "fighting" => some "#C03028"
  | "poison" => some "#A040A0"
  | "ground" => some "#E0C068"
  | "flying" => some "#A890F0"
  | "psychic" => some "#F85888"
  | "bug" => some "#A8B820"
  | "rock" => some "#B8A038"
  | "ghost" => some "#705898"
  | "dragon" => some "#7038F8"
  | "dark" => some "#705848"
  | "steel" => some "#B8B8D0"
  | "fairy" => some "#EE99AC"
  | _ => none

/-- `typeColors[name] || '#68A090'` (src/server.ts:174, 189). -/
def typeColorOf (n : String) : String :=
  (typeColors n).getD "#68A090"

/-- Replace form feeds and newlines of the flavor text by spaces
(src/server.ts:162). -/
def normalizeFlavor (s : String) : String :=
  ⟨s.data.map (fun c => if c = '\x0c' ∨ c = '\n' then ' ' else c)⟩

/-- `stats.find(s => s.stat.name === key)?.base_stat || 0`
(src/server.ts:207-212). -/
def statOf (stats : List StatEntry) (key : String) : Int :=
  match stats.find? (fun e => e.statName == key) with
  | some e => e.base_stat.getD 0
  | none => 0

/-- `url || null` on a sprite field (src/server.ts:222-225): JavaScript
truthiness sends the empty string to null as well. -/
def jsOrNull (o : Option String) : Option String :=
  match o with
  | some s => if s == "" then none else some s
  | none => none

/-- Shape one fetched move record into an ability (src/server.ts:181-197):
first "en" localized name with the canonical name as fallback, `power` kept
only when positive, element resolved through the color table. -/
def buildMove (md : MoveData) : PokemonMove :=
  { name :=
      match md.names.find? (fun n => n.lang == "en") with
      | some n => n.name
      | none => md.name
    power :=
      match md.power with
      | some p => if p > 0 then some p else none
      | none => none
    type := ⟨jsToUpperCase md.typeName, typeColorOf md.typeName⟩ }

/-- One guarded move fetch (src/server.ts:178-201): any individual failure
yields `none` instead of propagating. -/
def tryFetchMove (c : Catalog) (moveName : String) : Option PokemonMove :=
  match c.getMoveByName moveName with
  | .ok md => some (buildMove md)
  | .error _ => none

/-- `getPokemonDetails` (src/server.ts:150-229): fetch base and species
records, pick description and display name, resolve elements, fetch the first
10 moves dropping individual failures, read the six stats, copy sprites. -/
def getPokemonDetails (c : Catalog) (name : String) : Except UpErr Pokemon := do
  let pd ← c.getPokemonByName name
  let sp ← c.getPokemonSpeciesByName name
  let description :=
    match sp.flavor_text_entries.find? (fun e => e.lang == "en") with
    | some e => normalizeFlavor e.text
    | none => "No description available"
  let displayName :=
    match sp.names.find? (fun n => n.lang == "en") with
    | some n => n.name
    | none => pd.name
  let types := pd.types.map (fun t => PokemonType.mk (jsToUpperCase t.typeName) (typeColorOf t.typeName))
  let moves := (pd.moves.take 10).filterMap (fun m => tryFetchMove c m.moveName)
  pure { id := pd.id, name := displayName, description := description, types := types,
         moves := moves,
         sprites := ⟨jsOrNull pd.sprites.front_default, jsOrNull pd.sprites.back_default,
                     jsOrNull pd.sprites.front_shiny, jsOrNull pd.sprites.back_shiny⟩,
         stats := ⟨statOf pd.stats "hp", statOf pd.stats "speed", statOf pd.stats "attack",
                   statOf pd.stats "defense", statOf pd.stats "special-attack",
                   statOf pd.stats "special-defense"⟩ }

/-- GET /pokemon/:name (src/server.ts:280-306): lower-case the supplied name,
aggregate, map an upstream 404 to NOT_FOUND and anything else to a 500. -/
def getPokemonRoute (c : Catalog) (name : String) : Except ApiError Pokemon :=
  if name == "" then .error errNameRequired
  else
    match getPokemonDetails c (jsToLowerCase name) with
    | .ok p => .ok p
    | .error .notFound => .error errPokemonNotFound
    | .error .transport => .error errFetchPokemon

/-- `Promise.all` over one aggregation per page item (src/server.ts:264-268):
the ordered list of results when all succeed, the first failure otherwise. -/
def fetchAll (c : Catalog) (names : List String) : Except UpErr (List Pokemon) :=
  match names with
  | [] => .ok []
  | n :: rest =>
    match getPokemonDetails c n with
    | .error e => .error e
    | .ok p =>
      match fetchAll c rest with
      | .error e => .error e
      | .ok ps => .ok (p :: ps)

/-- Leading JavaScript whitespace skipped by `parseInt`. -/
def jsWhitespace (c : Char) : Bool :=
  c == ' ' || c == '\t' || c == '\n' || c == '\r'

/-- Decimal value of a digit run. -/
def digitsVal (cs : List Char) : Nat :=
  cs.foldl (fun acc c => acc * 10 + (c.toNat - 48)) 0

/-- Hexadecimal digit test. -/
def isHexDigit (c : Char) : Bool :=
  c.isDigit || ('a' ≤ c && c ≤ 'f') || ('A' ≤ c && c ≤ 'F')

/-- Value of one hexadecimal digit. -/
def hexVal (c : Char) : Nat :=
  if c.isDigit then c.toNat - 48
  else if 'a' ≤ c then c.toNat - 87
  else c.toNat - 55

/-- Leading decimal digits, `none` when there are none (`NaN`). -/
def decDigits (cs : List Char) : Option Int :=
  let ds := cs.takeWhile (fun c => c.isDigit)
  if ds.isEmpty then none else some (Int.ofNat (digitsVal ds))

/-- Leading hexadecimal digits, `none` when there are none. -/
def hexDigits (cs : List Char) : Option Int :=
  let ds := cs.takeWhile isHexDigit
  if ds.isEmpty then none
  else some (Int.ofNat (ds.foldl (fun acc c => acc * 16 + hexVal c) 0))

/-- Unsigned part of JavaScript `parseInt` with no radix argument: a `0x`
prefix switches to hexadecimal, otherwise the leading decimal digits. -/
def jsParseIntMag (cs : List Char) : Option Int :=
  match cs with
  | '0' :: 'x' :: rest => hexDigits rest
  | '0' :: 'X' :: rest => hexDigits rest
  | _ => decDigits cs

/-- `parseInt(queryParam)` (src/server.ts:251-252): `none` is `NaN`, covering
a missing parameter, no leading digits, or an empty string. -/
def jsParseInt (o : Option String) : Option Int :=
  match o with
  | none => none
  | some s =>
    let cs := s.data.dropWhile jsWhitespace
    match cs with
    | '-' :: rest => (jsParseIntMag rest).map (fun n => -n)
    | '+' :: rest => jsParseIntMag rest
    | _ => jsParseIntMag cs

/-- GET /pokemon/ (src/server.ts:249-277): reject NaN or out-of-range
pagination bounds, fetch the page of names, aggregate every name; any failure
after the pagination check surfaces as the catch-all 500. -/
def listPokemonRoute (c : Catalog) (limitParam offsetParam : Option String) :
    Except ApiError (List Pokemon) :=
  match jsParseInt limitParam, jsParseInt offsetParam with
  | some limit, some offset =>
    if limit ≤ 0 ∨ offset < 0 then .error errBadPagination
    else
      match c.getPokemonsList limit offset with
      | .error _ => .error errFetchList
      | .ok names =>
        match fetchAll c names with
        | .error _ => .error errFetchList
        | .ok ps => .ok ps
  | _, _ => .error errBadPagination


/-! Helper lemmas about the store, the key space, and the validators. -/

theorem storeGet_set_self (k : String) (v : Json) (s : Store) :
    storeGet k (storeSet k v s) = some v := by
  induction s with
  | nil => simp [storeGet, storeSet]
  | cons kv rest ih =>
    obtain ⟨k2, v2⟩ := kv
    by_cases h : (k2 == k) = true
    · simp [storeSet, h, storeGet]
    · simp only [storeSet, h, Bool.false_eq_true, if_false, storeGet]
      exact ih

theorem storeGet_set_other (k' k : String) (v : Json) (s : Store) (hk : k' ≠ k) :
    storeGet k' (storeSet k v s) = storeGet k' s := by
  have hkk : (k == k') = false := by
    rw [beq_eq_false_iff_ne]
    exact fun he => hk he.symm
  induction s with
  | nil => simp [storeGet, storeSet, hkk]
  | cons kv rest ih =>
    obtain ⟨k2, v2⟩ := kv
    by_cases h : (k2 == k) = true
    · have hk2 : (k2 == k') = false := by
        rw [beq_eq_false_iff_ne]
        rw [beq_iff_eq] at h
        subst h
        exact fun he => hk he.symm
      simp [storeSet, h, storeGet, hkk, hk2]
    · simp only [storeSet, h, Bool.false_eq_true, if_false, storeGet]
      rw [ih]

theorem storeGet_del_other (k' k : String) (s : Store) (hk : k' ≠ k) :
    storeGet k' (storeDel k s) = storeGet k' s := by
  induction s with
  | nil => rfl
  | cons kv rest ih =>
    obtain ⟨k2, v2⟩ := kv
    by_cases h : (k2 == k) = true
    · have hk2 : (k2 == k') = false := by
        rw [beq_eq_false_iff_ne]
        rw [beq_iff_eq] at h
        subst h
        exact fun he => hk he.symm
      simp only [storeDel, List.filter] at ih ⊢
      simp only [h, Bool.not_true, storeGet, hk2, Bool.false_eq_true, if_false]
      exact ih
    · simp only [storeDel, List.filter] at ih ⊢
      simp only [h, Bool.not_false, storeGet]
      by_cases h2 : (k2 == k') = true
      · simp [h2]
      · simp only [h2, Bool.false_eq_true, if_false]
        exact ih

theorem redisKeys_set (pattern k : String) (v : Json) (s : Store)
    (hnm : globMatch pattern.data k.data = false) :
    redisKeys pattern (storeSet k v s) = redisKeys pattern s := by
  induction s with
  | nil => simp [redisKeys, storeSet, List.filter_cons, hnm]
  | cons kv rest ih =>
    obtain ⟨k2, v2⟩ := kv
    by_cases h : (k2 == k) = true
    · rw [beq_iff_eq] at h
      subst h
      simp [redisKeys, storeSet, List.filter_cons, hnm]
    · simp only [storeSet, h, Bool.false_eq_true, if_false]
      simp only [redisKeys, List.map_cons, List.filter_cons] at ih ⊢
      rw [ih]

theorem storeGet_foldl_del (ks : List String) (k' : String) (s : Store)
    (hks : ∀ kk ∈ ks, kk ≠ k') :
    storeGet k' (ks.foldl (fun st kk => storeDel kk st) s) = storeGet k' s := by
  induction ks generalizing s with
  | nil => rfl
  | cons kk rest ih =>
    simp only [List.foldl]
    rw [ih _ (fun x hx => hks x (List.mem_cons_of_mem _ hx))]
    exact storeGet_del_other k' kk s (fun he => hks kk (List.mem_cons_self _ _) he.symm)

theorem mem_redisKeys (pattern kk : String) (s : Store) (hk : kk ∈ redisKeys pattern s) :
    globMatch pattern.data kk.data = true := by
  simp only [redisKeys, List.mem_filter] at hk
  exact hk.2

theorem globMatchFuel_star_all (fuel : Nat) : ∀ s : List Char, s.length + 1 < fuel →
    globMatchFuel fuel ['*'] s = true := by
  induction fuel with
  | zero =>
    intro s hs
    omega
  | succ f ih =>
    intro s hs
    cases s with
    | nil =>
      cases f with
      | zero => omega
      | succ f2 => rfl
    | cons c s2 =>
      show (globMatchFuel f [] (c :: s2) ||
        globMatchFuel f ('*' :: []) s2) = true
      rw [ih s2 (by simp at hs ⊢; omega)]
      simp

theorem globMatchFuel_cons_lit (fuel : Nat) (c : Char) (p s : List Char)
    (h1 : c ≠ '*') (h2 : c ≠ '?') (h3 : c ≠ '[') (h4 : c ≠ '\\') :
    globMatchFuel (fuel + 1) (c :: p) s =
      match s with
      | [] => false
      | c2 :: s2 => (c2 == c) && globMatchFuel fuel p s2 := by
  show (if c = '*' then
      globMatchFuel fuel p s ||
        (match s with
         | [] => false
         | _ :: s2 => globMatchFuel fuel (c :: p) s2)
    else if c = '?' then
      match s with
      | [] => false
      | _ :: s2 => globMatchFuel fuel p s2
    else if c = '[' then
      match s with
      | [] => false
      | c2 :: s2 =>
        match p with
        | '^' :: p2 =>
          (classMatch true false c2 p2).1 &&
            globMatchFuel fuel (classMatch true false c2 p2).2 s2
        | _ =>
          (classMatch false false c2 p).1 &&
            globMatchFuel fuel (classMatch false false c2 p).2 s2
    else if c = '\\' then
      match p, s with
      | x :: p2, c2 :: s2 => (c2 == x) && globMatchFuel fuel p2 s2
      | [], c2 :: s2 => (c2 == c) && globMatchFuel fuel [] s2
      | _, [] => false
    else
      match s with
      | [] => false
      | c2 :: s2 => (c2 == c) && globMatchFuel fuel p s2) = _
  rw [if_neg h1, if_neg h2, if_neg h3, if_neg h4]

/-- On a pattern made of glob-inert literals followed by a single trailing
`*`, redis glob matching is exactly literal-prefix matching. -/
theorem globMatchFuel_litStar : ∀ (lit : List Char) (s : List Char) (fuel : Nat),
    (∀ c ∈ lit, c ≠ '*' ∧ c ≠ '?' ∧ c ≠ '[' ∧ c ≠ '\\') →
    lit.length + s.length + 1 < fuel →
    globMatchFuel fuel (lit ++ ['*']) s = lit.isPrefixOf s := by
  intro lit
  induction lit with
  | nil =>
    intro s fuel _ hf
    rw [List.nil_append, globMatchFuel_star_all fuel s (by simpa using hf)]
    cases s <;> rfl
  | cons c lit2 ih =>
    intro s fuel hmeta hf
    obtain ⟨h1, h2, h3, h4⟩ := hmeta c (List.mem_cons_self _ _)
    cases fuel with
    | zero => omega
    | succ f =>
      rw [List.cons_append, globMatchFuel_cons_lit f c _ s h1 h2 h3 h4]
      cases s with
      | nil => rfl
      | cons c2 s2 =>
        show ((c2 == c) && globMatchFuel f (lit2 ++ ['*']) s2) =
          (c :: lit2).isPrefixOf (c2 :: s2)
        rw [ih s2 f (fun x hx => hmeta x (List.mem_cons_of_mem _ hx))
          (by simp at hf ⊢; omega)]
        show ((c2 == c) && lit2.isPrefixOf s2) = ((c == c2) && lit2.isPrefixOf s2)
        by_cases hc : c2 = c
        · subst hc
          rfl
        · rw [beq_eq_false_iff_ne.mpr hc, beq_eq_false_iff_ne.mpr (Ne.symm hc)]

theorem globMatch_litStar (lit s : List Char)
    (hmeta : ∀ c ∈ lit, c ≠ '*' ∧ c ≠ '?' ∧ c ≠ '[' ∧ c ≠ '\\') :
    globMatch (lit ++ ['*']) s = lit.isPrefixOf s := by
  unfold globMatch
  exact globMatchFuel_litStar lit s _ hmeta
    (by simp only [List.length_append, List.length_cons, List.length_nil]; omega)

/-- A character that is inert both in the key scheme and in a redis glob
pattern: not the `:` delimiter and not one of the glob metacharacters. -/
def plainChar (c : Char) : Bool :=
  !(c == ':' || c == '*' || c == '?' || c == '[' || c == '\\')

/-- An identity made only of inert characters. -/
def plainIdent (s : String) : Bool :=
  s.data.all plainChar

theorem plainIdent_no_colon {s : String} (h : plainIdent s = true) : ':' ∉ s.data := by
  intro hc
  rw [plainIdent, List.all_eq_true] at h
  have h2 := h ':' hc
  simp [plainChar] at h2

theorem plainIdent_sep_meta {i : String} (h : plainIdent i = true) :
    ∀ c ∈ (i ++ ":pokedex:").data, c ≠ '*' ∧ c ≠ '?' ∧ c ≠ '[' ∧ c ≠ '\\' := by
  intro c hc
  rw [String.data_append, List.mem_append] at hc
  cases hc with
  | inl hin =>
    rw [plainIdent, List.all_eq_true] at h
    have h2 := h c hin
    simp only [plainChar, Bool.not_eq_true', Bool.or_eq_false_iff, beq_eq_false_iff_ne] at h2
    exact ⟨h2.1.1.1.2, h2.1.1.2, h2.1.2, h2.2⟩
  | inr hin =>
    fin_cases hin <;> exact ⟨by decide, by decide, by decide, by decide⟩

theorem colon_append_inj (l1 : List Char) : ∀ (l2 r1 r2 : List Char),
    ':' ∉ l1 → ':' ∉ l2 → l1 ++ ':' :: r1 = l2 ++ ':' :: r2 → l1 = l2 ∧ r1 = r2 := by
  induction l1 with
  | nil =>
    intro l2 r1 r2 _ h2 he
    cases l2 with
    | nil =>
      simp only [List.nil_append] at he
      exact ⟨rfl, (List.cons.injEq _ _ _ _ ▸ he).2⟩
    | cons c t =>
      exfalso
      simp only [List.nil_append, List.cons_append, List.cons.injEq] at he
      exact h2 (he.1 ▸ List.mem_cons_self c t)
  | cons c t ih =>
    intro l2 r1 r2 h1 h2 he
    cases l2 with
    | nil =>
      exfalso
      simp only [List.cons_append, List.nil_append, List.cons.injEq] at he
      exact h1 (he.1 ▸ List.mem_cons_self c t)
    | cons c2 t2 =>
      simp only [List.cons_append, List.cons.injEq] at he
      obtain ⟨hc, htl⟩ := he
      have := ih t2 r1 r2 (fun hm => h1 (List.mem_cons_of_mem _ hm))
        (fun hm => h2 (List.mem_cons_of_mem _ hm)) htl
      exact ⟨by rw [hc, this.1], this.2⟩

theorem boxKey_data (i a : String) :
    (boxKey i a).data = i.data ++ ':' :: ("pokedex:".data ++ a.data) := by
  have hsep : (":pokedex:").data = ':' :: "pokedex:".data := rfl
  show ((i ++ ":pokedex:") ++ a).data = _
  rw [String.data_append, String.data_append, hsep, List.append_assoc, List.cons_append]

theorem boxKey_ne (i1 i2 a b : String)
    (h1 : ':' ∉ i1.data) (h2 : ':' ∉ i2.data) (hne : i1 ≠ i2) :
    boxKey i1 a ≠ boxKey i2 b := by
  intro he
  have hd := congrArg String.data he
  rw [boxKey_data, boxKey_data] at hd
  exact hne (String.ext (colon_append_inj i1.data i2.data _ _ h1 h2 hd).1)

theorem not_pref_boxKey (i1 i2 a : String)
    (h1 : ':' ∉ i1.data) (h2 : ':' ∉ i2.data) (hne : i1 ≠ i2) :
    (i2 ++ ":pokedex:").data.isPrefixOf (boxKey i1 a).data = false := by
  rw [Bool.eq_false_iff]
  intro hp
  have hp2 : (i2 ++ ":pokedex:").data <+: (boxKey i1 a).data :=
    List.isPrefixOf_iff_prefix.mp hp
  obtain ⟨t, ht⟩ := hp2
  rw [boxKey_data, String.data_append] at ht
  have hsep : (":pokedex:").data = ':' :: "pokedex:".data := rfl
  rw [hsep, List.append_assoc, List.cons_append] at ht
  exact hne (String.ext (colon_append_inj i1.data i2.data _ _ h1 h2 ht.symm).1)

/-- For glob-inert distinct identities, the `KEYS` pattern of one identity
never matches a box key of the other. -/
theorem globMatch_pattern_boxKey (i1 i2 a : String)
    (h1 : plainIdent i1 = true) (h2 : plainIdent i2 = true) (hne : i1 ≠ i2) :
    globMatch (i2 ++ ":pokedex:*").data (boxKey i1 a).data = false := by
  have hd : (i2 ++ ":pokedex:*").data = (i2 ++ ":pokedex:").data ++ ['*'] := by
    rw [String.data_append, String.data_append,
      show (":pokedex:*").data = ":pokedex:".data ++ ['*'] from rfl, List.append_assoc]
  rw [hd, globMatch_litStar _ _ (plainIdent_sep_meta h2)]
  exact not_pref_boxKey i1 i2 a (plainIdent_no_colon h1) (plainIdent_no_colon h2) hne

theorem fieldLookup_cons (k2 : String) (v2 : Json) (l : List (String × Json)) (k : String) :
    fieldLookup ((k2, v2) :: l) k =
      match fieldLookup l k with
      | some v => some v
      | none => if k2 == k then some v2 else none := rfl

theorem fieldLookup_append (a b : List (String × Json)) (k : String) :
    fieldLookup (a ++ b) k =
      match fieldLookup b k with
      | some v => some v
      | none => fieldLookup a k := by
  induction a with
  | nil =>
    simp only [List.nil_append, fieldLookup]
    cases fieldLookup b k <;> rfl
  | cons kv rest ih =>
    obtain ⟨k2, v2⟩ := kv
    rw [List.cons_append, fieldLookup_cons, ih, fieldLookup_cons]
    cases fieldLookup b k with
    | some v => rfl
    | none =>
      cases fieldLookup rest k with
      | some v2' => rfl
      | none => rfl

theorem fieldLookup_eq_none (l : List (String × Json)) (k : String)
    (h : ∀ kv ∈ l, kv.1 ≠ k) : fieldLookup l k = none := by
  induction l with
  | nil => rfl
  | cons kv rest ih =>
    obtain ⟨k2, v2⟩ := kv
    simp only [fieldLookup, ih (fun x hx => h x (List.mem_cons_of_mem _ hx))]
    rw [if_neg]
    rw [beq_iff_eq]
    exact h (k2, v2) (List.mem_cons_self _ _)

theorem fieldLookup_overwrite (u fs : List (String × Json)) (k : String)
    (h : ∀ kv ∈ u, kv.1 ≠ k) :
    fieldLookup (fs.map (overwriteWith u)) k = fieldLookup fs k := by
  induction fs with
  | nil => rfl
  | cons kv rest ih =>
    obtain ⟨k2, v2⟩ := kv
    rw [List.map_cons]
    by_cases hk2 : (k2 == k) = true
    · rw [beq_iff_eq] at hk2
      subst hk2
      have hfind : u.find? (fun kv2 => kv2.1 == k2) = none := by
        rw [List.find?_eq_none]
        intro x hx
        rw [beq_iff_eq]
        exact h x hx
      have ho : overwriteWith u (k2, v2) = (k2, v2) := by
        unfold overwriteWith
        rw [hfind]
      rw [ho, fieldLookup_cons, fieldLookup_cons, ih]
    · obtain ⟨w, hw⟩ : ∃ w, overwriteWith u (k2, v2) = (k2, w) := by
        unfold overwriteWith
        cases u.find? (fun kv2 => kv2.1 == (k2, v2).1) with
        | some kv2 => exact ⟨kv2.2, rfl⟩
        | none => exact ⟨v2, rfl⟩
      rw [hw, fieldLookup_cons, fieldLookup_cons, ih]
      cases fieldLookup rest k with
      | some v => rfl
      | none => simp only [hk2, Bool.false_eq_true, if_false]

theorem fieldLookup_merge (fs u : List (String × Json)) (k : String)
    (h : ∀ kv ∈ u, kv.1 ≠ k) :
    fieldLookup (mergeFields fs u) k = fieldLookup fs k := by
  unfold mergeFields
  rw [fieldLookup_append,
    fieldLookup_eq_none _ _ (fun kv hkv => h kv (List.mem_of_mem_filter hkv))]
  exact fieldLookup_overwrite u fs k h

theorem updateFieldsJson_key_ne_id (u : UpdatePayload) :
    ∀ kv ∈ updateFieldsJson u, kv.1 ≠ "id" := by
  intro kv hkv
  rw [updateFieldsJson, List.mem_filterMap] at hkv
  obtain ⟨⟨n, o⟩, ha, hfa⟩ := hkv
  obtain ⟨w, _, hw2⟩ := Option.map_eq_some'.mp hfa
  have hk : kv.1 = n := by rw [← hw2]
  rw [hk]
  simp only [List.mem_cons, List.not_mem_nil, or_false, Prod.mk.injEq] at ha
  rcases ha with ⟨h, _⟩ | ⟨h, _⟩ | ⟨h, _⟩ | ⟨h, _⟩ | ⟨h, _⟩ <;> subst h <;> decide

theorem chkDatetime_nil {v : Json} (h : chkDatetimeVal v = []) :
    ∃ s0, v = Json.str s0 ∧ isIsoDatetime s0 = true := by
  cases v with
  | str s0 =>
    refine ⟨s0, rfl, ?_⟩
    simp only [chkDatetimeVal] at h
    by_cases hd : isIsoDatetime s0 = true
    · exact hd
    · rw [if_neg hd] at h
      exact absurd h (by simp)
  | null => exact absurd h (by simp [chkDatetimeVal])
  | bool b => exact absurd h (by simp [chkDatetimeVal])
  | num q => exact absurd h (by simp [chkDatetimeVal])
  | arr xs => exact absurd h (by simp [chkDatetimeVal])
  | obj fs => exact absurd h (by simp [chkDatetimeVal])

theorem chkLevel_nil {v : Json} (h : chkLevelVal v = []) :
    ∃ q : ℚ, v = Json.num q ∧ q.den = 1 ∧ 1 ≤ q.num ∧ q.num ≤ 100 := by
  cases v with
  | num q =>
    refine ⟨q, rfl, ?_⟩
    simp only [chkLevelVal] at h
    by_cases hden : q.den = 1
    · rw [if_pos hden] at h
      by_cases hlo : q.num < 1
      · rw [if_pos hlo] at h
        exact absurd h (by simp)
      · rw [if_neg hlo] at h
        by_cases hhi : q.num > 100
        · rw [if_pos hhi] at h
          exact absurd h (by simp)
        · exact ⟨hden, by omega, by omega⟩
    · rw [if_neg hden] at h
      exact absurd h (by simp)
  | str s => exact absurd h (by simp [chkLevelVal])
  | null => exact absurd h (by simp [chkLevelVal])
  | bool b => exact absurd h (by simp [chkLevelVal])
  | arr xs => exact absurd h (by simp [chkLevelVal])
  | obj fs => exact absurd h (by simp [chkLevelVal])

theorem chkLocation_nil {v : Json} (h : chkLocationVal v = []) :
    ∃ s0, v = Json.str s0 ∧ 1 ≤ s0.length := by
  cases v with
  | str s0 =>
    refine ⟨s0, rfl, ?_⟩
    simp only [chkLocationVal] at h
    by_cases hl : 1 ≤ s0.length
    · exact hl
    · rw [if_neg hl] at h
      exact absurd h (by simp)
  | null => exact absurd h (by simp [chkLocationVal])
  | bool b => exact absurd h (by simp [chkLocationVal])
  | num q => exact absurd h (by simp [chkLocationVal])
  | arr xs => exact absurd h (by simp [chkLocationVal])
  | obj fs => exact absurd h (by simp [chkLocationVal])

theorem chkNotes_nil {v : Json} (h : chkNotesVal v = []) :
    ∃ s0, v = Json.str s0 := by
  cases v with
  | str s0 => exact ⟨s0, rfl⟩
  | null => exact absurd h (by simp [chkNotesVal])
  | bool b => exact absurd h (by simp [chkNotesVal])
  | num q => exact absurd h (by simp [chkNotesVal])
  | arr xs => exact absurd h (by simp [chkNotesVal])
  | obj fs => exact absurd h (by simp [chkNotesVal])

theorem chkPokemonId_nil {v : Json} (h : chkPokemonIdVal v = []) :
    ∃ q : ℚ, v = Json.num q ∧ q.den = 1 ∧ 0 < q.num := by
  cases v with
  | num q =>
    refine ⟨q, rfl, ?_⟩
    simp only [chkPokemonIdVal] at h
    by_cases hden : q.den = 1
    · rw [if_pos hden] at h
      by_cases hlo : q.num ≤ 0
      · rw [if_pos hlo] at h
        exact absurd h (by simp)
      · exact ⟨hden, by omega⟩
    · rw [if_neg hden] at h
      exact absurd h (by simp)
  | str s => exact absurd h (by simp [chkPokemonIdVal])
  | null => exact absurd h (by simp [chkPokemonIdVal])
  | bool b => exact absurd h (by simp [chkPokemonIdVal])
  | arr xs => exact absurd h (by simp [chkPokemonIdVal])
  | obj fs => exact absurd h (by simp [chkPokemonIdVal])

theorem chkReq_nil {f : String} {chk : Json → List FieldError} {o : Option Json}
    (h : chkReq f chk o = []) : ∃ v, o = some v ∧ chk v = [] := by
  cases o with
  | none => exact absurd h (by simp [chkReq])
  | some v => exact ⟨v, rfl, h⟩

theorem chkOpt_nil {chk : Json → List FieldError} {o : Option Json}
    (h : chkOpt chk o = []) : o = none ∨ ∃ v, o = some v ∧ chk v = [] := by
  cases o with
  | none => exact Or.inl rfl
  | some v => exact Or.inr ⟨v, rfl, h⟩

theorem intCast_of_den_one {q : ℚ} (h : q.den = 1) : ((q.num : ℚ)) = q :=
  Rat.ext (Rat.num_intCast q.num) (by rw [Rat.den_intCast, h])

theorem parseUpdate_error_ne_nil {j : Json} {es : List FieldError}
    (h : parseUpdate j = .error es) : es ≠ [] := by
  unfold parseUpdate at h
  by_cases hobj : j.isObj = true
  · rw [if_pos hobj] at h
    by_cases hemp : (updateFieldErrs j).isEmpty = true
    · rw [if_pos hemp] at h
      exact absurd h (by simp)
    · rw [if_neg hemp] at h
      rw [Except.error.injEq] at h
      rw [← h]
      rw [Bool.not_eq_true, List.isEmpty_eq_false_iff_exists_mem] at hemp
      obtain ⟨x, hx⟩ := hemp
      exact List.ne_nil_of_mem hx
  · rw [if_neg hobj] at h
    rw [Except.error.injEq] at h
    rw [← h]
    decide

theorem parseInsert_error_ne_nil {j : Json} {es : List FieldError}
    (h : parseInsert j = .error es) : es ≠ [] := by
  unfold parseInsert at h
  by_cases hobj : j.isObj = true
  · rw [if_pos hobj] at h
    by_cases hemp : (insertFieldErrs j).isEmpty = true
    · rw [if_pos hemp] at h
      exact absurd h (by simp)
    · rw [if_neg hemp] at h
      rw [Except.error.injEq] at h
      rw [← h]
      rw [Bool.not_eq_true, List.isEmpty_eq_false_iff_exists_mem] at hemp
      obtain ⟨x, hx⟩ := hemp
      exact List.ne_nil_of_mem hx
  · rw [if_neg hobj] at h
    rw [Except.error.injEq] at h
    rw [← h]
    decide

theorem jsCharToLower_idem (c : Char) : jsCharToLower (jsCharToLower c) = jsCharToLower c := by
  unfold jsCharToLower
  by_cases h : 65 ≤ c.toNat ∧ c.toNat ≤ 90
  · rw [if_pos h]
    have hv : (c.toNat + 32).isValidChar := Or.inl (by omega)
    have ht : (Char.ofNat (c.toNat + 32)).toNat = c.toNat + 32 := by
      rw [Char.ofNat, dif_pos hv]
      simp [Char.ofNatAux, Char.toNat, UInt32.toNat, BitVec.toNat_ofNatLt]
    rw [if_neg (by rw [ht]; omega)]
  · rw [if_neg h, if_neg h]

theorem jsToLowerCase_idem (s : String) :
    jsToLowerCase (jsToLowerCase s) = jsToLowerCase s := by
  show String.mk ((s.data.map jsCharToLower).map jsCharToLower) = String.mk (s.data.map jsCharToLower)
  rw [List.map_map]
  exact congrArg String.mk (List.map_congr_left (fun c _ => jsCharToLower_idem c))

theorem jsToLowerCase_ne_empty (s : String) (h : s ≠ "") : jsToLowerCase s ≠ "" := by
  intro he
  apply h
  have hd : s.data.map jsCharToLower = [] := congrArg String.data he
  exact String.ext (by rw [List.map_eq_nil_iff.mp hd])

/-! Concrete data used by witnesses and counterexamples. -/

/-- A request body valid under the insert schema, without `notes`. -/
def sampleBody : Json := Json.obj
  [("createdAt", Json.str "2024-01-15T10:00:00Z"), ("level", Json.num 5),
   ("location", Json.str "Route 1"), ("pokemonId", Json.num 25)]

/-- The typed payload `InsertBoxEntrySchema.parse` extracts from
`sampleBody`. -/
def samplePayload : InsertPayload := ⟨"2024-01-15T10:00:00Z", 5, "Route 1", none, 25⟩

/-- The entry stored for `samplePayload` under id `id1`. -/
def storedEntry : Json := encodeEntry "id1" samplePayload

/-- A store holding one entry owned by identity `ash`. -/
def oneEntryStore : Store := [("ash:pokedex:id1", storedEntry)]

/-- `storedEntry` after merging the update `{level: 7}` onto it. -/
def updatedEntry : Json := Json.obj
  [("id", Json.str "id1"), ("createdAt", Json.str "2024-01-15T10:00:00Z"),
   ("level", Json.num 7), ("location", Json.str "Route 1"), ("pokemonId", Json.num 25)]

/-- C3: for every stored entry and every update payload whose level is 101 (or
any payload violating the update schema), the update fails with a validation
error carrying field-level detail, and the store is not written on the error
path. -/
theorem c3_update_validation_rejected (pennkey entryId : String) (body : Json) (s : Store)
    (ex : Json) (hex : storeGet (boxKey pennkey entryId) s = some ex) :
    (∀ es, parseUpdate body = .error es →
       es ≠ [] ∧ updateBox pennkey entryId body s = (.error (errInvalidBody es), s)) ∧
    (body.lookup "level" = some (Json.num 101) →
       ∃ es, parseUpdate body = .error es ∧
         FieldError.mk "level" "Number must be less than or equal to 100" ∈ es) := by
  constructor
  · intro es hes
    refine ⟨parseUpdate_error_ne_nil hes, ?_⟩
    unfold updateBox
    rw [hex, hes]
  · intro hlvl
    cases body with
    | obj fs =>
      have hlv : chkOpt chkLevelVal ((Json.obj fs).lookup "level") =
          [⟨"level", "Number must be less than or equal to 100"⟩] := by
        rw [hlvl]
        decide
      have hmem : FieldError.mk "level" "Number must be less than or equal to 100" ∈
          updateFieldErrs (Json.obj fs) := by
        unfold updateFieldErrs
        rw [hlv]
        simp [List.mem_append]
      have hne : (updateFieldErrs (Json.obj fs)).isEmpty = false :=
        List.isEmpty_eq_false_iff_exists_mem.mpr ⟨_, hmem⟩
      refine ⟨updateFieldErrs (Json.obj fs), ?_, hmem⟩
      unfold parseUpdate
      rw [if_pos (show (Json.obj fs).isObj = true from rfl),
        if_neg (by rw [hne]; simp)]
    | null => exact absurd hlvl (by simp [Json.lookup])
    | bool b => exact absurd hlvl (by simp [Json.lookup])
    | num q => exact absurd hlvl (by simp [Json.lookup])
    | str t => exact absurd hlvl (by simp [Json.lookup])
    | arr xs => exact absurd hlvl (by simp [Json.lookup])

/-- C3 witness: updating the stored `ash` entry with `{level: 101}` returns
the validation error and leaves the store exactly as it was. -/
theorem c3_update_validation_rejected_witness :
    ([⟨"level", "Number must be less than or equal to 100"⟩] : List FieldError) ≠ [] ∧
    updateBox "ash" "id1" (Json.obj [("level", Json.num 101)]) oneEntryStore =
      (.error (errInvalidBody [⟨"level", "Number must be less than or equal to 100"⟩]),
       oneEntryStore) :=
  (c3_update_validation_rejected "ash" "id1" (Json.obj [("level", Json.num 101)])
    oneEntryStore storedEntry rfl).1 _ rfl

/-- C9: whatever the update payload contains, including an `id` field or other
fields outside the update schema, the entry's id after an update equals its id
before it: on success the merged record keeps the stored id, and on a failed
update the store is untouched. -/
theorem c9_update_id_immutable (pennkey entryId : String) (body : Json) (s : Store)
    (ex : Json) (hex : storeGet (boxKey pennkey entryId) s = some ex) :
    (∀ merged s2, updateBox pennkey entryId body s = (.ok merged, s2) →
       merged.lookup "id" = ex.lookup "id" ∧
       storeGet (boxKey pennkey entryId) s2 = some merged) ∧
    (∀ e s2, updateBox pennkey entryId body s = (.error e, s2) → s2 = s) := by
  have hid : ∀ u : UpdatePayload,
      (jsonMergeEntry ex (updateFieldsJson u)).lookup "id" = ex.lookup "id" := by
    intro u
    cases ex with
    | obj fs =>
      show fieldLookup (mergeFields fs (updateFieldsJson u)) "id" = fieldLookup fs "id"
      exact fieldLookup_merge fs _ "id" (updateFieldsJson_key_ne_id u)
    | null =>
      show fieldLookup (updateFieldsJson u) "id" = none
      exact fieldLookup_eq_none _ _ (updateFieldsJson_key_ne_id u)
    | bool b =>
      show fieldLookup (updateFieldsJson u) "id" = none
      exact fieldLookup_eq_none _ _ (updateFieldsJson_key_ne_id u)
    | num q =>
      show fieldLookup (updateFieldsJson u) "id" = none
      exact fieldLookup_eq_none _ _ (updateFieldsJson_key_ne_id u)
    | str t =>
      show fieldLookup (updateFieldsJson u) "id" = none
      exact fieldLookup_eq_none _ _ (updateFieldsJson_key_ne_id u)
    | arr xs =>
      show fieldLookup (updateFieldsJson u) "id" = none
      exact fieldLookup_eq_none _ _ (updateFieldsJson_key_ne_id u)
  have hcomp : ∀ u, parseUpdate body = .ok u →
      updateBox pennkey entryId body s =
        (match parseFullEntry (jsonMergeEntry ex (updateFieldsJson u)) with
         | .error es => (Except.error (errInvalidBody es), s)
         | .ok _ =>
           (Except.ok (jsonMergeEntry ex (updateFieldsJson u)),
            storeSet (boxKey pennkey entryId) (jsonMergeEntry ex (updateFieldsJson u)) s)) := by
    intro u hpu
    unfold updateBox
    rw [hex, hpu]
  constructor
  · intro merged s2 hupd
    cases hpu : parseUpdate body with
    | error es =>
      have heq : updateBox pennkey entryId body s = (.error (errInvalidBody es), s) := by
        unfold updateBox
        rw [hex, hpu]
      rw [heq] at hupd
      exact absurd hupd (by simp)
    | ok u =>
      rw [hcomp u hpu] at hupd
      cases hpf : parseFullEntry (jsonMergeEntry ex (updateFieldsJson u)) with
      | error es =>
        rw [hpf] at hupd
        exact absurd hupd (by simp)
      | ok u2 =>
        rw [hpf] at hupd
        simp only [Prod.mk.injEq, Except.ok.injEq] at hupd
        obtain ⟨hm, hs2⟩ := hupd
        rw [← hm, ← hs2]
        exact ⟨hid u, storeGet_set_self _ _ _⟩
  · intro e s2 hupd
    cases hpu : parseUpdate body with
    | error es =>
      have heq : updateBox pennkey entryId body s = (.error (errInvalidBody es), s) := by
        unfold updateBox
        rw [hex, hpu]
      rw [heq] at hupd
      simp only [Prod.mk.injEq] at hupd
      exact hupd.2.symm
    | ok u =>
      rw [hcomp u hpu] at hupd
      cases hpf : parseFullEntry (jsonMergeEntry ex (updateFieldsJson u)) with
      | error es =>
        rw [hpf] at hupd
        simp only [Prod.mk.injEq] at hupd
        exact hupd.2.symm
      | ok u2 =>
        rw [hpf] at hupd
        exact absurd hupd (by simp)

/-- C9 witness: updating the stored `ash` entry with a payload that smuggles
`{id: "evil"}` next to `{level: 7}` persists a record whose id is still the
stored one. -/
theorem c9_update_id_immutable_witness :
    updatedEntry.lookup "id" = storedEntry.lookup "id" ∧
    storeGet (boxKey "ash" "id1")
      [("ash:pokedex:id1", updatedEntry)] = some updatedEntry :=
  (c9_update_id_immutable "ash" "id1"
    (Json.obj [("id", Json.str "evil"), ("level", Json.num 7)]) oneEntryStore
    storedEntry rfl).1 updatedEntry [("ash:pokedex:id1", updatedEntry)] rfl

/-- C4: for every payload valid under the insert schema, create followed by
get on the fresh id yields an entry whose stored JSON round-trips unchanged
and agrees with the input payload on every schema field — including the
absence of an absent `notes` — plus the non-empty fresh id. -/
theorem c4_create_then_get (pennkey freshId : String) (body : Json) (p : InsertPayload)
    (s : Store) (hp : parseInsert body = .ok p) (hid : freshId ≠ "") :
    createBox pennkey freshId body s =
      (.ok (encodeEntry freshId p),
       storeSet (boxKey pennkey freshId) (encodeEntry freshId p) s) ∧
    getBox pennkey freshId (createBox pennkey freshId body s).2 =
      .ok (encodeEntry freshId p) ∧
    (encodeEntry freshId p).lookup "id" = some (Json.str freshId) ∧
    freshId ≠ "" ∧
    (encodeEntry freshId p).lookup "createdAt" = body.lookup "createdAt" ∧
    (encodeEntry freshId p).lookup "level" = body.lookup "level" ∧
    (encodeEntry freshId p).lookup "location" = body.lookup "location" ∧
    (encodeEntry freshId p).lookup "notes" = body.lookup "notes" ∧
    (encodeEntry freshId p).lookup "pokemonId" = body.lookup "pokemonId" := by
  have hcreate : createBox pennkey freshId body s =
      (.ok (encodeEntry freshId p),
       storeSet (boxKey pennkey freshId) (encodeEntry freshId p) s) := by
    unfold createBox
    rw [hp]
  have hget : getBox pennkey freshId (createBox pennkey freshId body s).2 =
      .ok (encodeEntry freshId p) := by
    rw [hcreate]
    unfold getBox
    rw [storeGet_set_self]
  -- invert the successful parse into the shapes of the five fields
  unfold parseInsert at hp
  by_cases hobj : body.isObj = true
  · rw [if_pos hobj] at hp
    by_cases hemp : (insertFieldErrs body).isEmpty = true
    · rw [if_pos hemp] at hp
      rw [List.isEmpty_iff] at hemp
      unfold insertFieldErrs at hemp
      rw [List.append_eq_nil, List.append_eq_nil, List.append_eq_nil,
        List.append_eq_nil] at hemp
      obtain ⟨⟨⟨⟨hca, hlv⟩, hloc⟩, hnt⟩, hpk⟩ := hemp
      obtain ⟨vca, hvca, hvca2⟩ := chkReq_nil hca
      obtain ⟨sca, hsca, _⟩ := chkDatetime_nil hvca2
      obtain ⟨vlv, hvlv, hvlv2⟩ := chkReq_nil hlv
      obtain ⟨qlv, hqlv, hqden, _, _⟩ := chkLevel_nil hvlv2
      obtain ⟨vloc, hvloc, hvloc2⟩ := chkReq_nil hloc
      obtain ⟨sloc, hsloc, _⟩ := chkLocation_nil hvloc2
      obtain ⟨vpk, hvpk, hvpk2⟩ := chkReq_nil hpk
      obtain ⟨qpk, hqpk, hqpkden, _⟩ := chkPokemonId_nil hvpk2
      subst hsca
      subst hqlv
      subst hsloc
      subst hqpk
      rw [Except.ok.injEq] at hp
      refine ⟨hcreate, hget, ?_, hid, ?_, ?_, ?_, ?_, ?_⟩
      all_goals rcases chkOpt_nil hnt with hno | ⟨vnt, hvnt, hvnt2⟩
      all_goals first
        | (obtain ⟨snt, hsnt⟩ := chkNotes_nil hvnt2
           subst hsnt
           rw [← hp, hvca, hvlv, hvloc, hvnt, hvpk]
           simp only [encodeEntry, insertFieldsJson, getStrVal, getIntVal, getOptStrVal,
             Json.lookup]
           rw [intCast_of_den_one hqden, intCast_of_den_one hqpkden] <;> rfl)
        | (rw [← hp, hvca, hvlv, hvloc, hno, hvpk]
           simp only [encodeEntry, insertFieldsJson, getStrVal, getIntVal, getOptStrVal,
             Json.lookup]
           rw [intCast_of_den_one hqden, intCast_of_den_one hqpkden] <;> rfl)
    · rw [if_neg hemp] at hp
      exact absurd hp (by simp)
  · rw [if_neg hobj] at hp
    exact absurd hp (by simp)

/-- C4 witness: creating `sampleBody` for `ash` under the fresh id `cid9` and
reading it back returns the entry with the fresh id and the payload fields,
`notes` staying absent. -/
theorem c4_create_then_get_witness :
    createBox "ash" "cid9" sampleBody [] =
      (.ok (encodeEntry "cid9" samplePayload),
       storeSet (boxKey "ash" "cid9") (encodeEntry "cid9" samplePayload) []) ∧
    getBox "ash" "cid9" (createBox "ash" "cid9" sampleBody []).2 =
      .ok (encodeEntry "cid9" samplePayload) ∧
    (encodeEntry "cid9" samplePayload).lookup "id" = some (Json.str "cid9") ∧
    ("cid9" : String) ≠ "" ∧
    (encodeEntry "cid9" samplePayload).lookup "createdAt" = sampleBody.lookup "createdAt" ∧
    (encodeEntry "cid9" samplePayload).lookup "level" = sampleBody.lookup "level" ∧
    (encodeEntry "cid9" samplePayload).lookup "location" = sampleBody.lookup "location" ∧
    (encodeEntry "cid9" samplePayload).lookup "notes" = sampleBody.lookup "notes" ∧
    (encodeEntry "cid9" samplePayload).lookup "pokemonId" = sampleBody.lookup "pokemonId" :=
  c4_create_then_get "ash" "cid9" sampleBody samplePayload [] rfl (by decide)

/-- C1 counterexample: distinct identities that are not isolated.  First, the
identity string `u:pokedex:x` injects the key delimiter, so the entry it
creates lands on the key `u:pokedex:x:pokedex:e1` — which identity `u` reads
back in full via `get(u, "x:pokedex:e1")` and which surfaces in `list(u)` as
the id `x`.  Second, the identity `*` injects a glob metacharacter, so its
`KEYS` pattern `*:pokedex:*` matches ash's key: `list("*")` returns ash's
entry id and `clearAll("*")` deletes ash's entry.  The claim as stated
(isolation for all pairs of distinct identities) is false. -/
theorem c1_counterexample :
    ("u:pokedex:x" : String) ≠ "u" ∧
    (createBox "u:pokedex:x" "e1" sampleBody []).2 =
      [("u:pokedex:x:pokedex:e1", encodeEntry "e1" samplePayload)] ∧
    getBox "u" "x:pokedex:e1"
      [("u:pokedex:x:pokedex:e1", encodeEntry "e1" samplePayload)] =
      .ok (encodeEntry "e1" samplePayload) ∧
    listBox "u" [("u:pokedex:x:pokedex:e1", encodeEntry "e1" samplePayload)] = ["x"] ∧
    ("*" : String) ≠ "ash" ∧
    listBox "*" oneEntryStore = ["id1"] ∧
    clearBox "*" oneEntryStore = [] :=
  ⟨by decide, rfl, rfl, rfl, by decide, rfl, rfl⟩

/-- C1 (amended): identity isolation holds for glob-inert identities — those
free of the `:` key delimiter and of the redis glob metacharacters `*`, `?`,
`[`, `\`: an entry created under `i1` never changes what `i2` sees through
`list` or `get`, and no operation performed under `i2` (create, update,
delete, clearAll) reads or writes a store key of `i1`. -/
theorem c1_identity_isolation (i1 i2 : String)
    (hp1 : plainIdent i1 = true) (hp2 : plainIdent i2 = true) (hne : i1 ≠ i2) :
    (∀ id1 body s, listBox i2 ((createBox i1 id1 body s).2) = listBox i2 s) ∧
    (∀ id1 id2 body s, getBox i2 id2 ((createBox i1 id1 body s).2) = getBox i2 id2 s) ∧
    (∀ id1 id2 body s,
       storeGet (boxKey i1 id1) ((createBox i2 id2 body s).2) = storeGet (boxKey i1 id1) s) ∧
    (∀ id1 id2 body s,
       storeGet (boxKey i1 id1) ((updateBox i2 id2 body s).2) = storeGet (boxKey i1 id1) s) ∧
    (∀ id1 id2 s,
       storeGet (boxKey i1 id1) ((deleteBox i2 id2 s).2) = storeGet (boxKey i1 id1) s) ∧
    (∀ id1 s, storeGet (boxKey i1 id1) (clearBox i2 s) = storeGet (boxKey i1 id1) s) := by
  have h1 : ':' ∉ i1.data := plainIdent_no_colon hp1
  have h2 : ':' ∉ i2.data := plainIdent_no_colon hp2
  refine ⟨?_, ?_, ?_, ?_, ?_, ?_⟩
  · intro id1 body s
    cases hpi : parseInsert body with
    | error es =>
      have : (createBox i1 id1 body s).2 = s := by
        unfold createBox
        rw [hpi]
      rw [this]
    | ok p =>
      have : (createBox i1 id1 body s).2 =
          storeSet (boxKey i1 id1) (encodeEntry id1 p) s := by
        unfold createBox
        rw [hpi]
      rw [this]
      unfold listBox
      rw [redisKeys_set _ _ _ _ (globMatch_pattern_boxKey i1 i2 id1 hp1 hp2 hne)]
  · intro id1 id2 body s
    cases hpi : parseInsert body with
    | error es =>
      have : (createBox i1 id1 body s).2 = s := by
        unfold createBox
        rw [hpi]
      rw [this]
    | ok p =>
      have : (createBox i1 id1 body s).2 =
          storeSet (boxKey i1 id1) (encodeEntry id1 p) s := by
        unfold createBox
        rw [hpi]
      rw [this]
      unfold getBox
      rw [storeGet_set_other _ _ _ _ (boxKey_ne i2 i1 id2 id1 h2 h1 hne.symm)]
  · intro id1 id2 body s
    cases hpi : parseInsert body with
    | error es =>
      have : (createBox i2 id2 body s).2 = s := by
        unfold createBox
        rw [hpi]
      rw [this]
    | ok p =>
      have : (createBox i2 id2 body s).2 =
          storeSet (boxKey i2 id2) (encodeEntry id2 p) s := by
        unfold createBox
        rw [hpi]
      rw [this]
      exact storeGet_set_other _ _ _ _ (boxKey_ne i1 i2 id1 id2 h1 h2 hne)
  · intro id1 id2 body s
    cases hg : storeGet (boxKey i2 id2) s with
    | none =>
      have : (updateBox i2 id2 body s).2 = s := by
        unfold updateBox
        rw [hg]
      rw [this]
    | some ex =>
      cases hpu : parseUpdate body with
      | error es =>
        have : (updateBox i2 id2 body s).2 = s := by
          unfold updateBox
          rw [hg, hpu]
        rw [this]
      | ok u =>
        cases hpf : parseFullEntry (jsonMergeEntry ex (updateFieldsJson u)) with
        | error es =>
          have : (updateBox i2 id2 body s).2 = s := by
            unfold updateBox
            rw [hg, hpu]
            show (match parseFullEntry (jsonMergeEntry ex (updateFieldsJson u)) with
              | Except.error es => (Except.error (errInvalidBody es), s)
              | Except.ok _ =>
                (Except.ok (jsonMergeEntry ex (updateFieldsJson u)),
                 storeSet (boxKey i2 id2) (jsonMergeEntry ex (updateFieldsJson u)) s)).2 = s
            rw [hpf]
          rw [this]
        | ok u2 =>
          have : (updateBox i2 id2 body s).2 =
              storeSet (boxKey i2 id2) (jsonMergeEntry ex (updateFieldsJson u)) s := by
            unfold updateBox
            rw [hg, hpu]
            show (match parseFullEntry (jsonMergeEntry ex (updateFieldsJson u)) with
              | Except.error es => (Except.error (errInvalidBody es), s)
              | Except.ok _ =>
                (Except.ok (jsonMergeEntry ex (updateFieldsJson u)),
                 storeSet (boxKey i2 id2) (jsonMergeEntry ex (updateFieldsJson u)) s)).2 = _
            rw [hpf]
          rw [this]
          exact storeGet_set_other _ _ _ _ (boxKey_ne i1 i2 id1 id2 h1 h2 hne)
  · intro id1 id2 s
    by_cases hex : storeExists (boxKey i2 id2) s = true
    · have : (deleteBox i2 id2 s).2 = storeDel (boxKey i2 id2) s := by
        unfold deleteBox
        rw [if_pos hex]
      rw [this]
      exact storeGet_del_other _ _ _ (boxKey_ne i1 i2 id1 id2 h1 h2 hne)
    · have : (deleteBox i2 id2 s).2 = s := by
        unfold deleteBox
        rw [if_neg hex]
      rw [this]
  · intro id1 s
    unfold clearBox
    apply storeGet_foldl_del
    intro kk hkk heq
    have hpref := mem_redisKeys _ _ _ hkk
    rw [heq] at hpref
    rw [globMatch_pattern_boxKey i1 i2 id1 hp1 hp2 hne] at hpref
    exact absurd hpref (by simp)

/-- C1 witness: with glob-inert identities `alice` and `bob`, an entry
created by `alice` changes nothing `bob` can list or get. -/
theorem c1_identity_isolation_witness :
    listBox "bob" ((createBox "alice" "id1" sampleBody []).2) = listBox "bob" [] ∧
    getBox "bob" "id1" ((createBox "alice" "id1" sampleBody []).2) = getBox "bob" "id1" [] :=
  ⟨(c1_identity_isolation "alice" "bob" (by decide) (by decide) (by decide)).1
      "id1" sampleBody [],
   (c1_identity_isolation "alice" "bob" (by decide) (by decide) (by decide)).2.1
      "id1" "id1" sampleBody []⟩

/-- A valid insert payload carrying one unrecognized extra field. -/
def extraFieldBody : Json := Json.obj
  [("createdAt", Json.str "2024-01-15T10:00:00Z"), ("level", Json.num 5),
   ("location", Json.str "Route 1"), ("pokemonId", Json.num 25),
   ("team", Json.str "rocket")]

/-- C5 counterexample: a create payload with the unrecognized extra field
`team` passes validation (the Zod object schema silently strips unknown keys)
and the create succeeds, so the claim that any extra field fails validation is
false as stated. -/
theorem c5_counterexample :
    parseInsert extraFieldBody = .ok samplePayload ∧
    createBox "alice" "cid1" extraFieldBody [] =
      (.ok (encodeEntry "cid1" samplePayload),
       [("alice:pokedex:cid1", encodeEntry "cid1" samplePayload)]) :=
  ⟨rfl, rfl⟩

/-- Whether a JSON value is a string. -/
def Json.isStr (j : Json) : Bool :=
  match j with
  | .str _ => true
  | _ => false

/-- Whether a JSON value is a number. -/
def Json.isNum (j : Json) : Bool :=
  match j with
  | .num _ => true
  | _ => false

/-- The insert validator rejects payload `j` with an issue naming field `f`,
and the create operation surfaces exactly that issue list as its
ValidationError, with the store not written. -/
def insertRejects (j : Json) (f : String) : Prop :=
  ∃ es, parseInsert j = .error es ∧ (∃ e ∈ es, e.field = f) ∧
    ∀ pennkey freshId s, createBox pennkey freshId j s = (.error (errInvalidBody es), s)

theorem isObj_of_lookup_some {j v : Json} {f : String}
    (h : j.lookup f = some v) : j.isObj = true := by
  cases j with
  | obj fs => rfl
  | null => exact absurd h (by simp [Json.lookup])
  | bool b => exact absurd h (by simp [Json.lookup])
  | num q => exact absurd h (by simp [Json.lookup])
  | str t => exact absurd h (by simp [Json.lookup])
  | arr xs => exact absurd h (by simp [Json.lookup])

theorem insertFieldIssue (j : Json) (e : FieldError) (hobj : j.isObj = true)
    (hmem : e ∈ insertFieldErrs j) : insertRejects j e.field := by
  have hne : (insertFieldErrs j).isEmpty = false :=
    List.isEmpty_eq_false_iff_exists_mem.mpr ⟨_, hmem⟩
  have hparse : parseInsert j = .error (insertFieldErrs j) := by
    unfold parseInsert
    rw [if_pos hobj, if_neg (by rw [hne]; simp)]
  refine ⟨insertFieldErrs j, hparse, ⟨e, hmem, rfl⟩, ?_⟩
  intro pennkey freshId s
  unfold createBox
  rw [hparse]

theorem chkDatetimeVal_not_str {v : Json} (h : v.isStr = false) :
    chkDatetimeVal v = [⟨"createdAt", "Expected string"⟩] := by
  cases v <;> simp_all [Json.isStr, chkDatetimeVal]

theorem chkLocationVal_not_str {v : Json} (h : v.isStr = false) :
    chkLocationVal v = [⟨"location", "Expected string"⟩] := by
  cases v <;> simp_all [Json.isStr, chkLocationVal]

theorem chkNotesVal_not_str {v : Json} (h : v.isStr = false) :
    chkNotesVal v = [⟨"notes", "Expected string"⟩] := by
  cases v <;> simp_all [Json.isStr, chkNotesVal]

theorem chkLevelVal_not_num {v : Json} (h : v.isNum = false) :
    chkLevelVal v = [⟨"level", "Expected number"⟩] := by
  cases v <;> simp_all [Json.isNum, chkLevelVal]

theorem chkPokemonIdVal_not_num {v : Json} (h : v.isNum = false) :
    chkPokemonIdVal v = [⟨"pokemonId", "Expected number"⟩] := by
  cases v <;> simp_all [Json.isNum, chkPokemonIdVal]

theorem chkLevelVal_not_int {q : ℚ} (h : ¬q.den = 1) :
    chkLevelVal (Json.num q) = [⟨"level", "Expected integer, received float"⟩] := by
  simp only [chkLevelVal]
  rw [if_neg h]

theorem chkPokemonIdVal_not_int {q : ℚ} (h : ¬q.den = 1) :
    chkPokemonIdVal (Json.num q) = [⟨"pokemonId", "Expected integer, received float"⟩] := by
  simp only [chkPokemonIdVal]
  rw [if_neg h]

/-- C5 (amended): a payload missing any required insert field, or whose value
for any declared field has the wrong JSON type — a non-string
createdAt/location/notes, a non-number or non-integer level/pokemonId — fails
validation and create returns the ValidationError with a field-level error
list naming the field and the store not written; unrecognized extra fields,
however, are ignored: the insert validator's verdict depends only on the five
declared keys, so a payload extended with extra fields validates exactly like
the stripped payload. -/
theorem c5_insert_validation :
    (∀ j1 j2 : Json, j1.isObj = true → j2.isObj = true →
       j1.lookup "createdAt" = j2.lookup "createdAt" →
       j1.lookup "level" = j2.lookup "level" →
       j1.lookup "location" = j2.lookup "location" →
       j1.lookup "notes" = j2.lookup "notes" →
       j1.lookup "pokemonId" = j2.lookup "pokemonId" →
       parseInsert j1 = parseInsert j2) ∧
    (∀ j : Json, j.isObj = true →
       (j.lookup "createdAt" = none → insertRejects j "createdAt") ∧
       (j.lookup "level" = none → insertRejects j "level") ∧
       (j.lookup "location" = none → insertRejects j "location") ∧
       (j.lookup "pokemonId" = none → insertRejects j "pokemonId")) ∧
    (∀ j v : Json, v.isStr = false →
       (j.lookup "createdAt" = some v → insertRejects j "createdAt") ∧
       (j.lookup "location" = some v → insertRejects j "location") ∧
       (j.lookup "notes" = some v → insertRejects j "notes")) ∧
    (∀ j v : Json, v.isNum = false →
       (j.lookup "level" = some v → insertRejects j "level") ∧
       (j.lookup "pokemonId" = some v → insertRejects j "pokemonId")) ∧
    (∀ (j : Json) (q : ℚ), ¬q.den = 1 →
       (j.lookup "level" = some (Json.num q) → insertRejects j "level") ∧
       (j.lookup "pokemonId" = some (Json.num q) → insertRejects j "pokemonId")) := by
  refine ⟨?_, ?_, ?_, ?_, ?_⟩
  · intro j1 j2 hobj1 hobj2 hca hlv hloc hnt hpk
    unfold parseInsert insertFieldErrs
    rw [hobj1, hobj2, hca, hlv, hloc, hnt, hpk]
  · intro j hobj
    refine ⟨?_, ?_, ?_, ?_⟩
    · intro hnone
      apply insertFieldIssue j ⟨"createdAt", "Required"⟩ hobj
      unfold insertFieldErrs
      rw [hnone]
      simp [chkReq, List.mem_append]
    · intro hnone
      apply insertFieldIssue j ⟨"level", "Required"⟩ hobj
      unfold insertFieldErrs
      rw [hnone]
      simp [chkReq, List.mem_append]
    · intro hnone
      apply insertFieldIssue j ⟨"location", "Required"⟩ hobj
      unfold insertFieldErrs
      rw [hnone]
      simp [chkReq, List.mem_append]
    · intro hnone
      apply insertFieldIssue j ⟨"pokemonId", "Required"⟩ hobj
      unfold insertFieldErrs
      rw [hnone]
      simp [chkReq, List.mem_append]
  · intro j v hstr
    refine ⟨?_, ?_, ?_⟩
    · intro hsome
      apply insertFieldIssue j ⟨"createdAt", "Expected string"⟩ (isObj_of_lookup_some hsome)
      unfold insertFieldErrs
      rw [hsome]
      simp [chkReq, chkOpt, chkDatetimeVal_not_str hstr, List.mem_append]
    · intro hsome
      apply insertFieldIssue j ⟨"location", "Expected string"⟩ (isObj_of_lookup_some hsome)
      unfold insertFieldErrs
      rw [hsome]
      simp [chkReq, chkOpt, chkLocationVal_not_str hstr, List.mem_append]
    · intro hsome
      apply insertFieldIssue j ⟨"notes", "Expected string"⟩ (isObj_of_lookup_some hsome)
      unfold insertFieldErrs
      rw [hsome]
      simp [chkReq, chkOpt, chkNotesVal_not_str hstr, List.mem_append]
  · intro j v hnum
    refine ⟨?_, ?_⟩
    · intro hsome
      apply insertFieldIssue j ⟨"level", "Expected number"⟩ (isObj_of_lookup_some hsome)
      unfold insertFieldErrs
      rw [hsome]
      simp [chkReq, chkOpt, chkLevelVal_not_num hnum, List.mem_append]
    · intro hsome
      apply insertFieldIssue j ⟨"pokemonId", "Expected number"⟩ (isObj_of_lookup_some hsome)
      unfold insertFieldErrs
      rw [hsome]
      simp [chkReq, chkOpt, chkPokemonIdVal_not_num hnum, List.mem_append]
  · intro j q hden
    refine ⟨?_, ?_⟩
    · intro hsome
      apply insertFieldIssue j ⟨"level", "Expected integer, received float"⟩
        (isObj_of_lookup_some hsome)
      unfold insertFieldErrs
      rw [hsome]
      simp [chkReq, chkOpt, chkLevelVal_not_int hden, List.mem_append]
    · intro hsome
      apply insertFieldIssue j ⟨"pokemonId", "Expected integer, received float"⟩
        (isObj_of_lookup_some hsome)
      unfold insertFieldErrs
      rw [hsome]
      simp [chkReq, chkOpt, chkPokemonIdVal_not_int hden, List.mem_append]

/-- C5 witness: the congruence applied to `extraFieldBody` against its
stripped form, plus one rejected instance each of a missing required field, a
number-typed location, a string-typed level, and a non-integer level. -/
theorem c5_insert_validation_witness :
    parseInsert extraFieldBody = parseInsert sampleBody ∧
    insertRejects (Json.obj [("location", Json.str "Pallet")]) "level" ∧
    insertRejects (Json.obj [("location", Json.num 3)]) "location" ∧
    insertRejects (Json.obj [("level", Json.str "five")]) "level" ∧
    insertRejects (Json.obj [("level", Json.num (Rat.mk' 1 2))]) "level" :=
  ⟨c5_insert_validation.1 extraFieldBody sampleBody rfl rfl rfl rfl rfl rfl rfl,
   ((c5_insert_validation.2.1 (Json.obj [("location", Json.str "Pallet")]) rfl).2.1) rfl,
   ((c5_insert_validation.2.2.1 (Json.obj [("location", Json.num 3)]) (Json.num 3) rfl).2.1) rfl,
   ((c5_insert_validation.2.2.2.1 (Json.obj [("level", Json.str "five")])
      (Json.str "five") rfl).1) rfl,
   ((c5_insert_validation.2.2.2.2 (Json.obj [("level", Json.num (Rat.mk' 1 2))])
      (Rat.mk' 1 2) (by decide)).1) rfl⟩

/-- The catalog with every upstream call failing on the transport level; the
bad-pagination branch of the bulk route answers before consulting it. -/
def downCatalog : Catalog :=
  ⟨fun _ => .error .transport, fun _ => .error .transport,
   fun _ => .error .transport, fun _ _ => .error .transport⟩

/-- C7 counterexample: a schema-violating create (a ValidationError) and a
malformed-pagination bulk read (a BadInput) produce responses with the same
status 400 and the same code `BAD_REQUEST`, so the kinds are not mapped to
distinct statuses and codes as claimed; only the field-error list separates
them. -/
theorem c7_counterexample :
    createBox "alice" "cid2"
      (Json.obj [("createdAt", Json.str "2024-01-15T10:00:00Z"),
                 ("level", Json.num 101), ("location", Json.str "Route 1"),
                 ("pokemonId", Json.num 25)]) [] =
      (.error (errInvalidBody
        [⟨"level", "Number must be less than or equal to 100"⟩]), []) ∧
    listPokemonRoute downCatalog (some "abc") (some "0") = .error errBadPagination ∧
    (errInvalidBody [⟨"level", "Number must be less than or equal to 100"⟩]).status =
      errBadPagination.status ∧
    (errInvalidBody [⟨"level", "Number must be less than or equal to 100"⟩]).code =
      errBadPagination.code :=
  ⟨rfl, rfl, rfl, rfl⟩

/-- C7 (amended): NotFound, Unauthorized and InternalFailure responses carry
pairwise distinct statuses and codes, distinct from the shared 400 family;
BadInput and ValidationError share status 400 and code `BAD_REQUEST` and are
distinguishable only by the attached field-error list, which a ValidationError
always carries non-empty while a BadInput response has none. -/
theorem c7_error_taxonomy (es : List FieldError) (hes : es ≠ []) :
    (errInvalidBody es).status = errBadPagination.status ∧
    (errInvalidBody es).code = errBadPagination.code ∧
    (errInvalidBody es).errors = es ∧
    (errInvalidBody es).errors ≠ [] ∧
    errBadPagination.errors = [] ∧
    errBadPagination.status ≠ errAuthMissing.status ∧
    errBadPagination.status ≠ errBoxNotFound.status ∧
    errBadPagination.status ≠ errFetchPokemon.status ∧
    errAuthMissing.status ≠ errBoxNotFound.status ∧
    errAuthMissing.status ≠ errFetchPokemon.status ∧
    errBoxNotFound.status ≠ errFetchPokemon.status ∧
    errBadPagination.code ≠ errAuthMissing.code ∧
    errBadPagination.code ≠ errBoxNotFound.code ∧
    errBadPagination.code ≠ errFetchPokemon.code ∧
    errAuthMissing.code ≠ errBoxNotFound.code ∧
    errAuthMissing.code ≠ errFetchPokemon.code ∧
    errBoxNotFound.code ≠ errFetchPokemon.code :=
  ⟨rfl, rfl, rfl, hes, rfl, by decide, by decide, by decide, by decide, by decide,
   by decide, by decide, by decide, by decide, by decide, by decide, by decide⟩

/-- C7 witness: the taxonomy facts at a concrete one-element error list. -/
theorem c7_error_taxonomy_witness :
    (errInvalidBody [⟨"level", "Required"⟩]).status = errBadPagination.status ∧
    (errInvalidBody [⟨"level", "Required"⟩]).code = errBadPagination.code ∧
    (errInvalidBody [⟨"level", "Required"⟩]).errors = [⟨"level", "Required"⟩] ∧
    (errInvalidBody [⟨"level", "Required"⟩]).errors ≠ [] ∧
    errBadPagination.errors = [] ∧
    errBadPagination.status ≠ errAuthMissing.status ∧
    errBadPagination.status ≠ errBoxNotFound.status ∧
    errBadPagination.status ≠ errFetchPokemon.status ∧
    errAuthMissing.status ≠ errBoxNotFound.status ∧
    errAuthMissing.status ≠ errFetchPokemon.status ∧
    errBoxNotFound.status ≠ errFetchPokemon.status ∧
    errBadPagination.code ≠ errAuthMissing.code ∧
    errBadPagination.code ≠ errBoxNotFound.code ∧
    errBadPagination.code ≠ errFetchPokemon.code ∧
    errAuthMissing.code ≠ errBoxNotFound.code ∧
    errAuthMissing.code ≠ errFetchPokemon.code ∧
    errBoxNotFound.code ≠ errFetchPokemon.code :=
  c7_error_taxonomy [⟨"level", "Required"⟩] (by decide)

/-- C2: when the base and species fetches succeed, the aggregation succeeds no
matter how the move fetches go, and the ability list is exactly the in-order
filter-map of the first 10 move references through the guarded per-move fetch
— so at most the first 10 references are considered, each is fetched
independently, individual failures are dropped silently, and the relative
order of the surviving moves is preserved; the result never has more than 10
abilities. -/
theorem c2_move_aggregation (c : Catalog) (name : String) (pd : PokemonData)
    (sp : SpeciesData) (hb : c.getPokemonByName name = .ok pd)
    (hs : c.getPokemonSpeciesByName name = .ok sp) :
    ∃ p : Pokemon, getPokemonDetails c name = .ok p ∧
      p.moves = (pd.moves.take 10).filterMap (fun m => tryFetchMove c m.moveName) ∧
      p.moves.length ≤ 10 := by
  unfold getPokemonDetails
  rw [hb, hs]
  refine ⟨_, rfl, rfl, ?_⟩
  calc ((pd.moves.take 10).filterMap (fun m => tryFetchMove c m.moveName)).length
      ≤ (pd.moves.take 10).length := List.length_filterMap_le _ _
    _ ≤ 10 := by rw [List.length_take]; exact min_le_left _ _

/-- The upstream base record of the witness creature: 12 move references. -/
def pdTwelve : PokemonData :=
  ⟨151, "mewtwo", [⟨"psychic"⟩],
   [⟨"m1"⟩, ⟨"m2"⟩, ⟨"m3"⟩, ⟨"m4"⟩, ⟨"m5"⟩, ⟨"m6"⟩, ⟨"m7"⟩, ⟨"m8"⟩, ⟨"m9"⟩,
    ⟨"m10"⟩, ⟨"m11"⟩, ⟨"m12"⟩],
   [⟨"hp", some 106⟩], ⟨none, none, none, none⟩⟩

/-- A catalog where the creature `mewtwo` has 12 moves of which `m3` and `m7`
individually fail to fetch. -/
def catTwelve : Catalog :=
  ⟨fun nm => if nm = "mewtwo" then .ok pdTwelve else .error .notFound,
   fun nm => if nm = "mewtwo" then .ok ⟨[], []⟩ else .error .notFound,
   fun nm => if nm = "m3" ∨ nm = "m7" then .error .transport
             else .ok ⟨nm, [], "psychic", some 40⟩,
   fun _ _ => .error .transport⟩

/-- C2 witness: aggregating the 12-move creature with 2 failing move fetches
succeeds with the capped, order-preserving ability list (8 survivors out of
the first 10 attempts). -/
theorem c2_move_aggregation_witness :
    catTwelve.getPokemonByName "mewtwo" = .ok pdTwelve ∧
    (∃ p : Pokemon, getPokemonDetails catTwelve "mewtwo" = .ok p ∧
       p.moves = (pdTwelve.moves.take 10).filterMap
         (fun m => tryFetchMove catTwelve m.moveName) ∧
       p.moves.length ≤ 10) ∧
    ((pdTwelve.moves.take 10).filterMap
      (fun m => tryFetchMove catTwelve m.moveName)).length = 8 :=
  ⟨rfl, c2_move_aggregation catTwelve "mewtwo" pdTwelve ⟨[], []⟩ rfl rfl, rfl⟩

/-- C6: with a non-empty requested name, an upstream not-found on the base or
the species fetch makes the single-creature route answer NOT_FOUND, while any
other upstream failure of those fetches becomes the 500 InternalFailure. -/
theorem c6_notfound_vs_internal (c : Catalog) (name : String) (hname : name ≠ "") :
    (c.getPokemonByName (jsToLowerCase name) = .error .notFound →
       getPokemonRoute c name = .error errPokemonNotFound) ∧
    (∀ pd, c.getPokemonByName (jsToLowerCase name) = .ok pd →
       c.getPokemonSpeciesByName (jsToLowerCase name) = .error .notFound →
       getPokemonRoute c name = .error errPokemonNotFound) ∧
    (c.getPokemonByName (jsToLowerCase name) = .error .transport →
       getPokemonRoute c name = .error errFetchPokemon) ∧
    (∀ pd, c.getPokemonByName (jsToLowerCase name) = .ok pd →
       c.getPokemonSpeciesByName (jsToLowerCase name) = .error .transport →
       getPokemonRoute c name = .error errFetchPokemon) := by
  have hnb : (name == "") = false := by
    rw [beq_eq_false_iff_ne]
    exact hname
  have hroute : getPokemonRoute c name =
      (match getPokemonDetails c (jsToLowerCase name) with
       | .ok p => .ok p
       | .error .notFound => .error errPokemonNotFound
       | .error .transport => .error errFetchPokemon) := by
    unfold getPokemonRoute
    rw [hnb]
    simp
  refine ⟨?_, ?_, ?_, ?_⟩
  · intro hb
    rw [hroute]
    unfold getPokemonDetails
    rw [hb]
    rfl
  · intro pd hb hs
    rw [hroute]
    unfold getPokemonDetails
    rw [hb, hs]
    rfl
  · intro hb
    rw [hroute]
    unfold getPokemonDetails
    rw [hb]
    rfl
  · intro pd hb hs
    rw [hroute]
    unfold getPokemonDetails
    rw [hb, hs]
    rfl

/-- The catalog knowing no creature at all: every fetch is an upstream 404. -/
def emptyUpstream : Catalog :=
  ⟨fun _ => .error .notFound, fun _ => .error .notFound,
   fun _ => .error .notFound, fun _ _ => .error .notFound⟩

/-- C6 witness: asking for a creature the upstream catalog does not know
yields the NOT_FOUND response, not the 500. -/
theorem c6_notfound_vs_internal_witness :
    getPokemonRoute emptyUpstream "missingno" = .error errPokemonNotFound :=
  (c6_notfound_vs_internal emptyUpstream "missingno" (by decide)).1 rfl

theorem fetchAll_ok_forall₂ (c : Catalog) (names : List String) (ps : List Pokemon)
    (h : fetchAll c names = .ok ps) :
    List.Forall₂ (fun n p => getPokemonDetails c n = .ok p) names ps := by
  induction names generalizing ps with
  | nil =>
    unfold fetchAll at h
    rw [Except.ok.injEq] at h
    rw [← h]
    exact List.Forall₂.nil
  | cons n rest ih =>
    unfold fetchAll at h
    cases hd : getPokemonDetails c n with
    | error e =>
      rw [hd] at h
      exact absurd h (by simp)
    | ok p =>
      rw [hd] at h
      cases hr : fetchAll c rest with
      | error e =>
        rw [hr] at h
        exact absurd h (by simp)
      | ok ps2 =>
        rw [hr, Except.ok.injEq] at h
        rw [← h]
        exact List.Forall₂.cons hd (ih ps2 hr)

theorem fetchAll_error_of_mem (c : Catalog) (names : List String)
    (h : ∃ n ∈ names, ∃ e, getPokemonDetails c n = .error e) :
    ∃ e2, fetchAll c names = .error e2 := by
  induction names with
  | nil =>
    obtain ⟨n, hn, _⟩ := h
    exact absurd hn (by simp)
  | cons n rest ih =>
    obtain ⟨n2, hn2, e, he⟩ := h
    rw [List.mem_cons] at hn2
    cases hn2 with
    | inl heq =>
      subst heq
      refine ⟨e, ?_⟩
      unfold fetchAll
      rw [he]
    | inr hmem =>
      cases hd : getPokemonDetails c n with
      | error e3 =>
        refine ⟨e3, ?_⟩
        unfold fetchAll
        rw [hd]
      | ok p =>
        obtain ⟨e2, he2⟩ := ih ⟨n2, hmem, e, he⟩
        refine ⟨e2, ?_⟩
        unfold fetchAll
        rw [hd, he2]

/-- C8: with well-formed pagination bounds and a fetched page of names, the
bulk route returns exactly the ordered per-name aggregation results when all
of them succeed, and fails as a whole — returning the 500 with no partial
list — as soon as any single aggregation on the page fails. -/
theorem c8_bulk_all_or_nothing (c : Catalog) (limitParam offsetParam : Option String)
    (limit offset : Int) (names : List String)
    (hl : jsParseInt limitParam = some limit) (ho : jsParseInt offsetParam = some offset)
    (hlp : 0 < limit) (hop : 0 ≤ offset)
    (hpage : c.getPokemonsList limit offset = .ok names) :
    (∀ ps, fetchAll c names = .ok ps →
       listPokemonRoute c limitParam offsetParam = .ok ps ∧
       List.Forall₂ (fun n p => getPokemonDetails c n = .ok p) names ps) ∧
    ((∃ n ∈ names, ∃ e, getPokemonDetails c n = .error e) →
       listPokemonRoute c limitParam offsetParam = .error errFetchList) := by
  constructor
  · intro ps hps
    refine ⟨?_, fetchAll_ok_forall₂ c names ps hps⟩
    unfold listPokemonRoute
    simp only [hl, ho, hpage, hps]
    rw [if_neg (by omega)]
  · intro hfail
    obtain ⟨e2, he2⟩ := fetchAll_error_of_mem c names hfail
    unfold listPokemonRoute
    simp only [hl, ho, hpage, he2]
    rw [if_neg (by omega)]

/-- A one-page catalog: the page at limit 1, offset 0 holds the single name
`onlymon`, which aggregates successfully. -/
def pageCatalog : Catalog :=
  ⟨fun nm => if nm = "onlymon"
     then .ok ⟨7, "onlymon", [], [], [], ⟨none, none, none, none⟩⟩
     else .error .notFound,
   fun nm => if nm = "onlymon" then .ok ⟨[], []⟩ else .error .notFound,
   fun _ => .error .transport,
   fun limit offset => if limit = 1 ∧ offset = 0 then .ok ["onlymon"] else .error .transport⟩

/-- The composite creature the aggregator builds for `onlymon`. -/
def onlymonPokemon : Pokemon :=
  ⟨7, "onlymon", "No description available", [], [], ⟨none, none, none, none⟩,
   ⟨0, 0, 0, 0, 0, 0⟩⟩

/-- C8 witness: the bulk route at `limit=1&offset=0` returns the ordered
one-element aggregation of the fetched page. -/
theorem c8_bulk_all_or_nothing_witness :
    listPokemonRoute pageCatalog (some "1") (some "0") = .ok [onlymonPokemon] ∧
    List.Forall₂ (fun n p => getPokemonDetails pageCatalog n = .ok p)
      ["onlymon"] [onlymonPokemon] :=
  (c8_bulk_all_or_nothing pageCatalog (some "1") (some "0") 1 0 ["onlymon"]
    rfl rfl (by decide) (by decide) rfl).1 [onlymonPokemon] rfl

/-- C10: the single-creature route lower-cases the requested name before
aggregating, so for any non-empty name, requesting the name and requesting
its lower-cased form produce identical responses — the public lookup is
case-insensitive in the requested name. -/
theorem c10_lowercase_canonical (c : Catalog) (name : String) (hname : name ≠ "") :
    getPokemonRoute c name = getPokemonRoute c (jsToLowerCase name) := by
  have hnb : (name == "") = false := by
    rw [beq_eq_false_iff_ne]
    exact hname
  have hnb2 : (jsToLowerCase name == "") = false := by
    rw [beq_eq_false_iff_ne]
    exact jsToLowerCase_ne_empty name hname
  unfold getPokemonRoute
  rw [hnb, hnb2, jsToLowerCase_idem]

/-- C10 witness: requesting `PiKaChu` and requesting `pikachu` produce the
same response. -/
theorem c10_lowercase_canonical_witness :
    getPokemonRoute emptyUpstream "PiKaChu" =
      getPokemonRoute emptyUpstream (jsToLowerCase "PiKaChu") :=
  c10_lowercase_canonical emptyUpstream "PiKaChu" (by decide)
